import Mathlib

/-!
Verification of the knm::synthesizer core (knm_synthesizer.hpp) against its
natural-language specification.

Modelling conventions:
* machine integers (uint8/uint16/uint32/size_t) are `Nat`, signed ones `Int`,
  with explicit wrapping (`% 2^w` / `toInt16`) where the C++ cast matters;
* `float`/`double` quantities are modelled as `Rat` in the purely arithmetic
  layers (Channel, Sampler index arithmetic, render assembly, mix gains) —
  every operation that the settled claims depend on there is exact in binary
  floating point or is compared at the level of the defining formula —
  and as `ℝ` in the `VolumeEnvelope`, whose claims mention `exp` itself;
* transcendental helpers (`powf`, `cosf`) that only produce an opaque scalar
  consumed by the logic under verification are abstracted as function
  parameters of the embedding, so that the definitions stay executable.
-/

namespace KnmSynth

/-- Reinterpretation of a non-negative machine word as a signed 16-bit value,
as performed by the C++ cast `int16_t(...)`. -/
def toInt16 (x : Nat) : Int :=
  if x % 65536 < 32768 then ((x % 65536 : Nat) : Int) else ((x % 65536 : Nat) : Int) - 65536

/-- The constant `NON_AUDIBLE = 0.001f` of the source, in the `Rat` model. -/
def NON_AUDIBLE : Rat := 1 / 1000

/-- `clamp(value, min, max)` helper of the source. -/
def clamp (value mn mx : Rat) : Rat :=
  if value < mn then mn
  else if value > mx then mx
  else value

/-! ## Channel

Embedding of `class Channel` (knm_synthesizer.hpp).  Field names follow the
C++ member names, method names the C++ accessors.  The 14-bit controllers are
`Nat`, `_rpn` is `Int` (it is `int16_t` in the source and holds `-1` when
unset), `_pitch_bend` is the stored float. -/

structure Channel where
  _percussion : Bool
  _bank : Nat
  _preset : Nat
  _pitch_bend : Rat
  _modulation : Nat
  _volume : Nat
  _pan : Nat
  _expression : Nat
  _sustain : Bool
  _reverb_send : Nat
  _chorus_send : Nat
  _rpn : Int
  _pitch_bend_range : Nat
  _coarse_tune : Int
  _fine_tune : Nat
deriving Repr, DecidableEq

/-- `Channel::reset()`. -/
def Channel.reset (c : Channel) : Channel :=
  { c with
    _bank := if c._percussion then 128 else 0
    _preset := 0
    _modulation := 0
    _volume := 100 <<< 7
    _pan := 64 <<< 7
    _expression := 127 <<< 7
    _sustain := false
    _reverb_send := 40
    _chorus_send := 0
    _rpn := -1
    _pitch_bend_range := 2 <<< 7
    _coarse_tune := 0
    _fine_tune := 8192
    _pitch_bend := 0 }

/-- `Channel::resetControllers()`. -/
def Channel.resetControllers (c : Channel) : Channel :=
  { c with
    _modulation := 0
    _expression := 127 <<< 7
    _sustain := false
    _rpn := -1
    _pitch_bend := 0 }

/-- The `Channel(bool percussion)` constructor: every other field is then
initialized by `reset()`. -/
def Channel.init (percussion : Bool) : Channel :=
  Channel.reset
    { _percussion := percussion, _bank := 0, _preset := 0, _pitch_bend := 0,
      _modulation := 0, _volume := 0, _pan := 0, _expression := 0,
      _sustain := false, _reverb_send := 0, _chorus_send := 0, _rpn := 0,
      _pitch_bend_range := 0, _coarse_tune := 0, _fine_tune := 0 }

/-- `Channel::setPitchBend(value1, value2)`:
`_pitch_bend = (1.0f / 8192.0f) * (int16_t(value1 | (value2 << 7)) - 8192)`. -/
def Channel.setPitchBend (c : Channel) (value1 value2 : Nat) : Channel :=
  { c with _pitch_bend := (1 / 8192 : Rat) * ((toInt16 (value1 ||| (value2 <<< 7)) : Rat) - 8192) }

/-- `Channel::pitchBendRange()` readout:
`(range >> 7) + 0.01f * (range & 0x7F)` semitones. -/
def Channel.pitchBendRange (c : Channel) : Rat :=
  ((c._pitch_bend_range >>> 7 : Nat) : Rat) + (1 / 100 : Rat) * ((c._pitch_bend_range &&& 0x7F : Nat) : Rat)

/-- `Channel::pitchBend()` readout: `pitchBendRange() * _pitch_bend`. -/
def Channel.pitchBend (c : Channel) : Rat :=
  c.pitchBendRange * c._pitch_bend

/-- `Channel::modulation()` readout. -/
def Channel.modulation (c : Channel) : Rat :=
  (50 / 16383 : Rat) * (c._modulation : Rat)

/-- `Channel::pan()` readout: `(100.0f / 16383.0f) * _pan - 50.0f`. -/
def Channel.pan (c : Channel) : Rat :=
  (100 / 16383 : Rat) * (c._pan : Rat) - 50

/-- `Channel::expression()` readout. -/
def Channel.expression (c : Channel) : Rat :=
  (1 / 16383 : Rat) * (c._expression : Rat)

/-- `Channel::sustain()` readout. -/
def Channel.sustain (c : Channel) : Bool :=
  c._sustain

/-- `Channel::reverbSend()` readout. -/
def Channel.reverbSend (c : Channel) : Rat :=
  (1 / 127 : Rat) * (c._reverb_send : Rat)

/-- `Channel::chorusSend()` readout. -/
def Channel.chorusSend (c : Channel) : Rat :=
  (1 / 127 : Rat) * (c._chorus_send : Rat)

/-- `Channel::tune()` readout. -/
def Channel.tune (c : Channel) : Rat :=
  (c._coarse_tune : Rat) + (1 / 8192 : Rat) * ((toInt16 c._fine_tune : Rat) - 8192)

/-! ## Sampler

Embedding of `class Sampler`.  `_current_index` is the `double` fractional
read position, modelled as `Rat`.  The tuning fields (`_tune`,
`_pitch_change_scale`, `_sample_rate_ratio`, the root key) enter
`Sampler::process` only through the locally computed
`pitch_ratio = _sample_rate_ratio * pow(2.0f, pitch_change / 12.0f)`;
since that value is produced by the floating-point `pow`, the embedding of the
processing loop takes the resulting `ratio` as a parameter and the claims
quantify over it. -/

inductive loop_mode_t where
  | LOOP_MODE_NONE
  | LOOP_MODE_CONTINUOUS
  | LOOP_MODE_UNTIL_RELEASE
deriving Repr, DecidableEq

structure Sampler where
  _start : Nat
  _end : Nat
  _loop_mode : loop_mode_t
  _loop_start : Nat
  _loop_end : Nat
  _looping : Bool
  _current_index : Rat
deriving Repr, DecidableEq

/-- `uint32_t index = (uint32_t) floor(_current_index)` (the read position is
non-negative in every reachable state considered here). -/
def floorIdx (x : Rat) : Nat :=
  (Int.floor x).toNat

/-- `loop_length = _loop_end - _loop_start` (uint32 subtraction; the loop
points satisfy `_loop_start ≤ _loop_end` in well-formed data, matching the
truncated `Nat` subtraction). -/
def Sampler.loopLength (s : Sampler) : Nat :=
  s._loop_end - s._loop_start

/-- The interpolation body of the loop in `Sampler::process`:
`index`, `index2` (with the looping wrap of `index2`), `x1`, `x2`, `a`,
`dest[i] = x1 + a * (x2 - x1)`. -/
def Sampler.interp (s : Sampler) (buffer : Nat → Rat) (ci : Rat) : Rat :=
  let index := floorIdx ci
  let index2 := index + 1
  let index2 := if s._looping = true ∧ s._loop_end ≤ index2 then index2 - s.loopLength else index2
  let x1 := buffer index
  let x2 := buffer index2
  let a := ci - (index : Rat)
  x1 + a * (x2 - x1)

/-- The index advance at the end of each loop iteration of `Sampler::process`:
`_current_index += pitch_ratio; if (_looping && (_current_index >= _loop_end))
_current_index -= (float) loop_length;`. -/
def Sampler.advanceIndex (s : Sampler) (ratio ci : Rat) : Rat :=
  let c := ci + ratio
  if s._looping = true ∧ (s._loop_end : Rat) ≤ c then c - (s.loopLength : Rat) else c

/-- The `for (int i = 0; i < size; ++i)` loop of `Sampler::process`, from
iteration `i` on, with `ci` the entry value of `_current_index` and
`remaining = size - i` the number of iterations still to run (the loop
counter decreases by exactly one per iteration, so the countdown form is the
same loop).  `none` models the `return false` exit (only taken at `i = 0`);
`some` carries the produced samples `dest[i..size)` and the final
`_current_index`. -/
def Sampler.go (s : Sampler) (buffer : Nat → Rat) (ratio : Rat) :
    Nat → Nat → Rat → Option (List Rat × Rat)
  | 0, _, ci => some ([], ci)
  | remaining + 1, i, ci =>
    let index := floorIdx ci
    if s._looping = false ∧ s._end ≤ index then
      if i = 0 then none
      else some (List.replicate (remaining + 1) 0, ci)
    else
      let out := s.interp buffer ci
      match Sampler.go s buffer ratio remaining (i + 1) (s.advanceIndex ratio ci) with
      | some (rest, cf) => some (out :: rest, cf)
      | none => none

/-- `Sampler::process(dest, size, pitch)` with the already computed
`pitch_ratio` passed as `ratio` (see the section comment). -/
def Sampler.process (s : Sampler) (buffer : Nat → Rat) (ratio : Rat) (size : Nat) :
    Option (List Rat × Rat) :=
  Sampler.go s buffer ratio size 0 s._current_index

/-! ## Voice

Embedding of `class Voice`.  Each voice owns two `track_t` records.  The
DSP members of `track_t` (volume and modulation envelopes, the two LFOs, the
sampler, the biquad filter, `cutoff`, `resonance`, the modulation coupling
scalars, `smoothed_cutoff` and the output block) are only read and written by
the track-level `Voice::process(const Channel&, track_t&)` and
`Voice::start(const sf::sample_info_t&, ..., track_t&)`; the voice-level code
settled here treats them as the opaque sub-state `dsp : σ` and takes the
track-level routines as the parameters `procTrack`, `relTrack` and
`startTrack`.  The `1.0 + (sqrtf(2.0f) - 1.0) * cosf((M_PI_2 / 50.0f) * pan)`
pan factor is likewise the parameter `panFactor`. -/

inductive voice_state_t where
  | VOICE_STATE_PLAYING
  | VOICE_STATE_RELEASE_REQUESTED
  | VOICE_STATE_RELEASED
deriving Repr, DecidableEq

structure Track (σ : Type) where
  note_gain : Rat
  instrument_pan : Rat
  instrument_reverb : Rat
  instrument_chorus : Rat
  previous_mix_gain : Rat
  current_mix_gain : Rat
  dsp : σ
deriving Repr, DecidableEq

structure Voice (σ : Type) where
  _stereo : Bool
  _left : Track σ
  _right : Track σ
  _previous_reverb_send : Rat
  _previous_chorus_send : Rat
  _current_reverb_send : Rat
  _current_chorus_send : Rat
  _exclusive_class : Nat
  _channel : Nat
  _key : Nat
  _velocity : Nat
  _voice_state : voice_state_t
  _voice_length : Nat
deriving Repr, DecidableEq

open voice_state_t

/-- `sf::key_info_t` as consumed by the voice layer: the stereo flag, the
`GEN_TYPE_EXCLUSIVE_CLASS` generator of the left sample (default 0), and the
two `sf::sample_info_t` payloads abstracted as `κ`. -/
structure KeyInfo (κ : Type) where
  stereo : Bool
  left_exclusive_class : Nat
  left : κ
  right : κ
deriving Repr, DecidableEq

/-- `Voice::start(key_info, buffer, channel, key, velocity)`; the per-track
initialisation is the parameter `startTrack`. -/
def Voice.start (startTrack : κ → Track σ → Track σ) (ki : KeyInfo κ)
    (channel key velocity : Nat) (v : Voice σ) : Voice σ :=
  let v := { v with
    _stereo := ki.stereo
    _exclusive_class := ki.left_exclusive_class
    _channel := channel
    _key := key
    _velocity := velocity }
  let v := { v with _left := startTrack ki.left v._left }
  let v := if v._stereo = true then { v with _right := startTrack ki.right v._right } else v
  { v with _voice_state := VOICE_STATE_PLAYING, _voice_length := 0 }

/-- `Voice::end()`. -/
def Voice.endVoice (v : Voice σ) : Voice σ :=
  if v._voice_state = VOICE_STATE_PLAYING then
    { v with _voice_state := VOICE_STATE_RELEASE_REQUESTED }
  else v

/-- `Voice::kill()`. -/
def Voice.kill (v : Voice σ) : Voice σ :=
  { v with
    _left := { v._left with note_gain := 0 }
    _right := { v._right with note_gain := 0 } }

/-- The early-out test of `Voice::process`:
`(_left.note_gain < NON_AUDIBLE) && (!_stereo || (_right.note_gain < NON_AUDIBLE))`. -/
def Voice.inaudible (v : Voice σ) : Prop :=
  v._left.note_gain < NON_AUDIBLE ∧ (v._stereo = false ∨ v._right.note_gain < NON_AUDIBLE)

instance (v : Voice σ) : Decidable v.inaudible := by
  unfold Voice.inaudible
  infer_instance

/-- The release paragraph of `Voice::process`: when the grace window elapsed,
release was requested and sustain is off, release both envelopes and the
sampler of each live track (`relTrack`) and move to `VOICE_STATE_RELEASED`. -/
def Voice.releasePhase (sampleRate : Nat) (relTrack : Track σ → Track σ)
    (ch : Channel) (v : Voice σ) : Voice σ :=
  if sampleRate / 500 ≤ v._voice_length ∧ v._voice_state = VOICE_STATE_RELEASE_REQUESTED ∧
      ch.sustain = false then
    let v := { v with _left := relTrack v._left }
    let v := if v._stereo = true then { v with _right := relTrack v._right } else v
    { v with _voice_state := VOICE_STATE_RELEASED }
  else v

/-- `_left.previous_mix_gain = _left.current_mix_gain;` and the same for the
right track. -/
def Voice.shiftGains (v : Voice σ) : Voice σ :=
  { v with
    _left := { v._left with previous_mix_gain := v._left.current_mix_gain }
    _right := { v._right with previous_mix_gain := v._right.current_mix_gain } }

/-- The track-processing paragraph of `Voice::process`:
`bool success = process(channel_info, _left); if (_stereo)
success = process(channel_info, _right) || success;`. -/
def Voice.tracksPhase (procTrack : Channel → Track σ → Bool × Track σ)
    (ch : Channel) (v : Voice σ) : Bool × Voice σ :=
  let pl := procTrack ch v._left
  if v._stereo = true then
    let pr := procTrack ch v._right
    (pr.1 || pl.1, { v with _left := pl.2, _right := pr.2 })
  else
    (pl.1, { v with _left := pl.2 })

/-- The pan paragraph of `Voice::process` (both the mono split and the
per-track stereo scaling). -/
def Voice.panPhase (panFactor : Rat → Rat) (ch : Channel) (v : Voice σ) : Voice σ :=
  if v._stereo = false then
    let pan := ch.pan + v._left.instrument_pan
    if -50 < pan ∧ pan < 50 then
      let factor := panFactor pan
      let gain := v._left.current_mix_gain
      { v with
        _left := { v._left with current_mix_gain := gain * (50 - pan) / 100 * factor }
        _right := { v._right with current_mix_gain := gain * (50 + pan) / 100 * factor } }
    else v
  else
    let v :=
      let pan := ch.pan + v._left.instrument_pan
      if -50 < pan ∧ pan < 50 then
        let factor := panFactor pan
        { v with _left := { v._left with
          current_mix_gain := v._left.current_mix_gain * ((50 - pan) / 100 * factor) } }
      else v
    let pan := ch.pan + v._right.instrument_pan
    if -50 < pan ∧ pan < 50 then
      let factor := panFactor pan
      { v with _right := { v._right with
        current_mix_gain := v._right.current_mix_gain * ((50 - pan) / 100 * factor) } }
    else v

/-- The reverb/chorus send paragraph of `Voice::process`. -/
def Voice.sendsPhase (ch : Channel) (v : Voice σ) : Voice σ :=
  let v := { v with
    _previous_reverb_send := v._current_reverb_send
    _previous_chorus_send := v._current_chorus_send }
  if v._stereo = true then
    { v with
      _current_reverb_send :=
        clamp (ch.reverbSend + (v._left.instrument_reverb + v._right.instrument_reverb) * (1/2)) 0 1
      _current_chorus_send :=
        clamp (ch.chorusSend + (v._left.instrument_chorus + v._right.instrument_chorus) * (1/2)) 0 1 }
  else
    { v with
      _current_reverb_send := clamp (ch.reverbSend + v._left.instrument_reverb) 0 1
      _current_chorus_send := clamp (ch.chorusSend + v._left.instrument_chorus) 0 1 }

/-- The `if (_voice_length == 0)` paragraph of `Voice::process`. -/
def Voice.firstBlockSnap (v : Voice σ) : Voice σ :=
  if v._voice_length = 0 then
    { v with
      _left := { v._left with previous_mix_gain := v._left.current_mix_gain }
      _right := { v._right with previous_mix_gain := v._right.current_mix_gain }
      _previous_reverb_send := v._current_reverb_send
      _previous_chorus_send := v._current_chorus_send }
  else v

/-- `Voice::process()`, assembled from the paragraphs above in source order. -/
def Voice.process (blockSize sampleRate : Nat) (panFactor : Rat → Rat)
    (procTrack : Channel → Track σ → Bool × Track σ) (relTrack : Track σ → Track σ)
    (ch : Channel) (v : Voice σ) : Bool × Voice σ :=
  if v.inaudible then (false, v)
  else
    let v1 := Voice.shiftGains (Voice.releasePhase sampleRate relTrack ch v)
    let p := Voice.tracksPhase procTrack ch v1
    if p.1 = false then (false, p.2)
    else
      let v3 := Voice.firstBlockSnap (Voice.sendsPhase ch (Voice.panPhase panFactor ch p.2))
      (true, { v3 with _voice_length := v3._voice_length + blockSize })

/-- A sequence of `Voice::process()` calls (one per block, under the channel
state current at that block); returns the number of calls that returned
`true` together with the final voice state. -/
def Voice.processRun (blockSize sampleRate : Nat) (panFactor : Rat → Rat)
    (procTrack : Channel → Track σ → Bool × Track σ) (relTrack : Track σ → Track σ) :
    List Channel → Voice σ → Nat × Voice σ
  | [], v => (0, v)
  | ch :: rest, v =>
    let p := Voice.process blockSize sampleRate panFactor procTrack relTrack ch v
    let r := Voice.processRun blockSize sampleRate panFactor procTrack relTrack rest p.2
    (if p.1 then r.1 + 1 else r.1, r.2)

/-! ## VoiceCollection

Embedding of `class VoiceCollection`: a fixed vector of voices with the
active prefix `[0, _nb_active_voices)`.  The voice accessors used by
`request` (`priority()`, `voiceLength()`, `exclusiveClass()`, `channel()`,
`key()`) read state that partly lives behind the `dsp` abstraction, so they
are bundled as the parameter record `VoiceView`; `Voice::process()` as called
from `VoiceCollection::process` is the parameter `procV`. -/

structure VoiceView (V : Type) where
  priority : V → Rat
  voiceLength : V → Nat
  exclusiveClass : V → Nat
  channel : V → Nat
  key : V → Nat

structure VoiceCollection (V : Type) where
  _voices : List V
  _nb_active_voices : Nat
deriving Repr, DecidableEq

/-- The eviction scan of `VoiceCollection::request`: lowest `priority()`,
ties broken towards the larger `voiceLength()`.  The accumulator carries the
current candidate (with its position) and `lowest_priority`, initially
`(nullptr, 1000000.0f)`.  On a tie with a still-null candidate the source
would dereference null; that dead case keeps the accumulator. -/
def VoiceCollection.evictStep (view : VoiceView V)
    (acc : Option (Nat × V) × Rat) (iv : Nat × V) : Option (Nat × V) × Rat :=
  let p := view.priority iv.2
  if p < acc.2 then (some iv, p)
  else if p = acc.2 then
    match acc.1 with
    | some c => if view.voiceLength c.2 < view.voiceLength iv.2 then (some iv, acc.2) else acc
    | none => acc
  else acc

def VoiceCollection.evictionCandidate (view : VoiceView V) (voices : List V) :
    Option (Nat × V) :=
  (voices.enum.foldl (VoiceCollection.evictStep view) (none, 1000000)).1

/-- `VoiceCollection::request(channel, exclusive_class)`.  Returns the index
of the voice handed back to the caller (`none` models the null result on an
empty pool, which the caller would dereference). -/
def VoiceCollection.request (view : VoiceView V) (channel ec : Nat)
    (s : VoiceCollection V) : Option Nat × VoiceCollection V :=
  match
    if ec ≠ 0 then
      (s._voices.take s._nb_active_voices).findIdx?
        (fun v => view.exclusiveClass v == ec && view.channel v == channel)
    else none
  with
  | some i => (some i, s)
  | none =>
    if s._nb_active_voices < s._voices.length then
      (some s._nb_active_voices, { s with _nb_active_voices := s._nb_active_voices + 1 })
    else
      ((VoiceCollection.evictionCandidate view s._voices).map Prod.fst, s)

/-- The `while (i != _nb_active_voices)` partition loop of
`VoiceCollection::process` from position `i` on: a voice whose `process()`
returns `false` is swapped with `_voices[_nb_active_voices - 1]` and the
count decremented, without advancing `i`. -/
def VoiceCollection.processLoop (procV : V → Bool × V) (v0 : V)
    (s : VoiceCollection V) (i : Nat) : VoiceCollection V :=
  if _h : i < s._nb_active_voices then
    let p := procV (s._voices.getD i v0)
    let vs := s._voices.set i p.2
    if p.1 then
      VoiceCollection.processLoop procV v0 { s with _voices := vs } (i + 1)
    else
      let n1 := s._nb_active_voices - 1
      let vs2 := (vs.set i (vs.getD n1 v0)).set n1 (vs.getD i v0)
      VoiceCollection.processLoop procV v0 { _voices := vs2, _nb_active_voices := n1 } i
  else s
termination_by s._nb_active_voices - i

/-- `VoiceCollection::process()`. -/
def VoiceCollection.process (procV : V → Bool × V) (v0 : V)
    (s : VoiceCollection V) : VoiceCollection V :=
  VoiceCollection.processLoop procV v0 s 0

/-- `VoiceCollection::clear()`. -/
def VoiceCollection.clear (s : VoiceCollection V) : VoiceCollection V :=
  { s with _nb_active_voices := 0 }

/-- The operations a `Synthesizer` performs on its voice collection:
`noteOn` issues `request` (followed by `start()` on the returned voice, a
`setSlot`), `noteOff` / graceful `allNotesOff` mutate voices in place through
the active prefix (`setSlot`), immediate `allNotesOff` and `reset` issue
`clear`, and `render` issues `process` once per produced block. -/
inductive PoolOp (V : Type) where
  | request (channel ec : Nat)
  | processAll
  | clearAll
  | setSlot (i : Nat) (v : V)

def PoolOp.apply (view : VoiceView V) (procV : V → Bool × V) (v0 : V) :
    PoolOp V → VoiceCollection V → VoiceCollection V
  | PoolOp.request ch ec, s => (VoiceCollection.request view ch ec s).2
  | PoolOp.processAll, s => VoiceCollection.process procV v0 s
  | PoolOp.clearAll, s => VoiceCollection.clear s
  | PoolOp.setSlot i v, s => { s with _voices := s._voices.set i v }

def PoolOp.run (view : VoiceView V) (procV : V → Bool × V) (v0 : V)
    (ops : List (PoolOp V)) (s : VoiceCollection V) : VoiceCollection V :=
  ops.foldl (fun s op => PoolOp.apply view procV v0 op s) s

/-! ## Synthesizer: note dispatch

Embedding of `Synthesizer::noteOn` / `Synthesizer::noteOff`.  The SoundFont
query `sf::SoundFont::getKeyInfo` lives in the external `knm_soundfont`
library; it is the parameter `gki`, returning `some key_info` where the C++
call returns `true` and fills its out-parameter.  Where every lookup fails,
the C++ local `sf::key_info_t key_info;` keeps its default-constructed
contents, passed here as `ki0`. -/

structure SynthModel (V : Type) where
  channels : List Channel
  voices : VoiceCollection V
deriving Repr

/-- The 16 channels built by the `Synthesizer` constructor
(`PERCUSSION_CHANNEL = 9`). -/
def Synthesizer.initChannels : List Channel :=
  (List.range 16).map (fun i => Channel.init (i == 9))

/-- `Synthesizer::noteOff(channel, key)`: `end()` every active voice with
matching channel and key. -/
def Synthesizer.noteOff (view : VoiceView V) (endV : V → V)
    (channel key : Nat) (st : SynthModel V) : SynthModel V :=
  if st.channels.length ≤ channel then st
  else
    { st with voices := { st.voices with
        _voices := st.voices._voices.mapIdx (fun i v =>
          if i < st.voices._nb_active_voices ∧ view.channel v = channel ∧ view.key v = key
          then endV v else v) } }

/-- `Synthesizer::noteOn(channel, key, velocity)`: the preset lookup cascade
(configured bank/preset, GM fallback, default preset — whose result the
source ignores), then `request` and `start()` (the latter via `startV` on the
slot returned by the request). -/
def Synthesizer.noteOn (view : VoiceView V) (endV : V → V) (v0 : V)
    (gki : Nat → Nat → Nat → Nat → Option (KeyInfo κ)) (ki0 : KeyInfo κ)
    (defaultPreset : Nat × Nat) (startV : KeyInfo κ → Nat → Nat → Nat → V → V)
    (channel key velocity : Nat) (st : SynthModel V) : SynthModel V :=
  if velocity = 0 then Synthesizer.noteOff view endV channel key st
  else if st.channels.length ≤ channel then st
  else
    let ch := st.channels.getD channel (Channel.init false)
    let key_info :=
      match gki ch._bank ch._preset key velocity with
      | some k => k
      | none =>
        let pid : Nat × Nat := if ch._bank < 128 then (0, ch._preset) else (128, 0)
        match gki pid.1 pid.2 key velocity with
        | some k => k
        | none => (gki defaultPreset.1 defaultPreset.2 key velocity).getD ki0
    let rq := VoiceCollection.request view channel key_info.left_exclusive_class st.voices
    match rq.1 with
    | some i =>
      { st with voices := { rq.2 with
          _voices := rq.2._voices.set i
            (startV key_info channel key velocity (rq.2._voices.getD i v0)) } }
    | none => { st with voices := rq.2 }

/-! ## Render assembly

Embedding of the block-to-frames loop shared by
`Synthesizer::render(left, right, size)` and `Synthesizer::render(buffer,
size)`, polymorphic in the per-frame payload `α` (a mono sample, or a
left/right pair).  One call to `renderBlockStereo` / `renderBlockMono`
deterministically transforms the voice state and fills the accumulator
block, so the succession of produced blocks is a function of the state at
the first call; it is abstracted as the stream `blocks`, with `nextBlock`
counting the calls made so far. -/

structure RenderState (α : Type) where
  _blocks_offset : Nat
  _block : List α
  nextBlock : Nat
deriving Repr, DecidableEq

/-- `if (_blocks_offset == _settings.blockSize()) { renderBlock...(); _blocks_offset = 0; }` -/
def Synthesizer.refillIfNeeded (blockSize : Nat) (blocks : Nat → List α)
    (s : RenderState α) : RenderState α :=
  if s._blocks_offset = blockSize then
    { _blocks_offset := 0, _block := blocks s.nextBlock, nextBlock := s.nextBlock + 1 }
  else s

/-- The `while (nb_written < size)` loop of `Synthesizer::render`, with `n`
the number of frames still to write.  The inner guard is unreachable for
`0 < blockSize` and `_blocks_offset ≤ blockSize` (after the refill test the
offset is strictly below the block size); it makes the chunked recursion
well-founded. -/
def Synthesizer.renderGo [Inhabited α] (blockSize : Nat) (blocks : Nat → List α) :
    Nat → RenderState α → List α × RenderState α
  | n, s =>
    if hn : n = 0 then ([], s)
    else
      if hdead : blockSize ≤ (Synthesizer.refillIfNeeded blockSize blocks s)._blocks_offset then
        ([], Synthesizer.refillIfNeeded blockSize blocks s)
      else
        let s1 := Synthesizer.refillIfNeeded blockSize blocks s
        let remainder := min (blockSize - s1._blocks_offset) n
        let out := (List.range remainder).map (fun t => s1._block.getD (s1._blocks_offset + t) default)
        let s2 := { s1 with _blocks_offset := s1._blocks_offset + remainder }
        let r := Synthesizer.renderGo blockSize blocks
          (n - min (blockSize - (Synthesizer.refillIfNeeded blockSize blocks s)._blocks_offset) n) s2
        (out ++ r.1, r.2)
termination_by n _ => n
decreasing_by
  omega

/-- Single-frame refactoring of `renderGo`, used only in the proofs: one
frame is consumed per step, refilling first when the offset reached the
block size. -/
def Synthesizer.sampleGo [Inhabited α] (blockSize : Nat) (blocks : Nat → List α) :
    Nat → RenderState α → List α × RenderState α
  | 0, s => ([], s)
  | n + 1, s =>
    let s1 := Synthesizer.refillIfNeeded blockSize blocks s
    let x := s1._block.getD s1._blocks_offset default
    let r := Synthesizer.sampleGo blockSize blocks n { s1 with _blocks_offset := s1._blocks_offset + 1 }
    (x :: r.1, r.2)

/-- `Synthesizer::render(buffer, size)` / `render(left, right, size)`: the
assembly loop above followed by `_nb_rendered_samples += nb_written`
(`nb_written = size` when the loop exits). -/
def Synthesizer.render [Inhabited α] (blockSize : Nat) (blocks : Nat → List α)
    (size : Nat) (s : RenderState α) (nb_rendered_samples : Nat) :
    (List α × RenderState α) × Nat :=
  (Synthesizer.renderGo blockSize blocks size s, nb_rendered_samples + size)

/-! ## VolumeEnvelope

Embedding of `class VolumeEnvelope` over `ℝ`: its settled claim is stated
against the mathematical exponential, so the `exp` / `log` of the source are
`Real.exp` / `Real.log` here. -/

/-- `NON_AUDIBLE = 0.001f` in the real-valued model. -/
noncomputable def NON_AUDIBLE_R : ℝ := 1 / 1000

/-- `LOG_NON_AUDIBLE = log(NON_AUDIBLE)`. -/
noncomputable def LOG_NON_AUDIBLE : ℝ := Real.log NON_AUDIBLE_R

/-- `exp_cutoff(x)`: 0 below `LOG_NON_AUDIBLE`, else `exp(x)`. -/
noncomputable def exp_cutoff (x : ℝ) : ℝ :=
  if x < LOG_NON_AUDIBLE then 0 else Real.exp x

/-- `clamp` on the real-valued side. -/
noncomputable def clampR (value mn mx : ℝ) : ℝ :=
  if value < mn then mn
  else if value > mx then mx
  else value

inductive envelope_stage_t where
  | ENV_STAGE_DELAY
  | ENV_STAGE_ATTACK
  | ENV_STAGE_HOLD
  | ENV_STAGE_DECAY
  | ENV_STAGE_RELEASE
deriving Repr, DecidableEq

open envelope_stage_t

structure VolumeEnvelope where
  sample_rate : Nat
  attack_slope : ℝ
  decay_slope : ℝ
  release_slope : ℝ
  attack_start_time : ℝ
  hold_start_time : ℝ
  decay_start_time : ℝ
  release_start_time : ℝ
  sustain_level : ℝ
  release_level : ℝ
  nb_processed_samples : Nat
  stage : envelope_stage_t
  value : ℝ
  priority : ℝ

/-- The `while (stage <= ENV_STAGE_HOLD)` loop of `VolumeEnvelope::process`,
unrolled by the entry stage: from Delay, Attack or Hold the stage advances
while the current time has reached the stage's end time (`attack_start_time`,
`hold_start_time`, `decay_start_time` respectively, `current_time < end`
breaking the loop); Decay and Release are left untouched. -/
noncomputable def VolumeEnvelope.advanceStage (e : VolumeEnvelope) (t : ℝ) :
    envelope_stage_t :=
  match e.stage with
  | ENV_STAGE_DELAY =>
    if t < e.attack_start_time then ENV_STAGE_DELAY
    else if t < e.hold_start_time then ENV_STAGE_ATTACK
    else if t < e.decay_start_time then ENV_STAGE_HOLD
    else ENV_STAGE_DECAY
  | ENV_STAGE_ATTACK =>
    if t < e.hold_start_time then ENV_STAGE_ATTACK
    else if t < e.decay_start_time then ENV_STAGE_HOLD
    else ENV_STAGE_DECAY
  | ENV_STAGE_HOLD =>
    if t < e.decay_start_time then ENV_STAGE_HOLD
    else ENV_STAGE_DECAY
  | st => st

/-- `VolumeEnvelope::process(nb_samples)`. -/
noncomputable def VolumeEnvelope.process (e : VolumeEnvelope) (nb_samples : Nat) :
    Bool × VolumeEnvelope :=
  let nb := e.nb_processed_samples + nb_samples
  let t : ℝ := (nb : ℝ) / (e.sample_rate : ℝ)
  let e1 := { e with nb_processed_samples := nb, stage := VolumeEnvelope.advanceStage e t }
  match e1.stage with
  | ENV_STAGE_DELAY => (true, { e1 with value := 0, priority := 3 })
  | ENV_STAGE_ATTACK =>
    let value := e.attack_slope * (t - e.attack_start_time)
    (true, { e1 with value := value, priority := 3 - value })
  | ENV_STAGE_HOLD => (true, { e1 with value := 1, priority := 2 })
  | ENV_STAGE_DECAY =>
    let value := max (exp_cutoff (e.decay_slope * (t - e.decay_start_time))) e.sustain_level
    (decide (NON_AUDIBLE_R < value), { e1 with value := value, priority := 1 + value })
  | ENV_STAGE_RELEASE =>
    let value := e.release_level * exp_cutoff (e.release_slope * (t - e.release_start_time))
    (decide (NON_AUDIBLE_R < value), { e1 with value := value, priority := value })

/-- `VolumeEnvelope::release()`. -/
noncomputable def VolumeEnvelope.release (e : VolumeEnvelope) : VolumeEnvelope :=
  { e with
    stage := ENV_STAGE_RELEASE
    release_start_time := (e.nb_processed_samples : ℝ) / (e.sample_rate : ℝ)
    release_level := e.value }

/-- `VolumeEnvelope::start(delay, attack, hold, decay, sustain, release)`
(the constant `-9.226f` is the rational it denotes; the trailing
`process(0)` computes the initial value and priority). -/
noncomputable def VolumeEnvelope.start (sample_rate : Nat)
    (delay attack hold decay sustain release : ℝ) : VolumeEnvelope :=
  let e : VolumeEnvelope :=
    { sample_rate := sample_rate
      attack_slope := 1 / attack
      decay_slope := -(9226 / 1000) / decay
      release_slope := -(9226 / 1000) / release
      attack_start_time := delay
      hold_start_time := delay + attack
      decay_start_time := delay + attack + hold
      release_start_time := 0
      sustain_level := clampR sustain 0 1
      release_level := 0
      nb_processed_samples := 0
      stage := ENV_STAGE_DELAY
      value := 0
      priority := 0 }
  (e.process 0).2

/-! ## Concrete instances used in witnesses and counterexamples -/

/-- A non-looping sampler over a two-sample region `[0, 2)`. -/
def samplerNL : Sampler :=
  { _start := 0, _end := 2, _loop_mode := loop_mode_t.LOOP_MODE_NONE,
    _loop_start := 0, _loop_end := 0, _looping := false, _current_index := 0 }

/-- A looping sampler with a one-sample loop `[0, 1)`. -/
def samplerLP : Sampler :=
  { _start := 0, _end := 10, _loop_mode := loop_mode_t.LOOP_MODE_CONTINUOUS,
    _loop_start := 0, _loop_end := 1, _looping := true, _current_index := 0 }

/-- The identity ramp used as a sample buffer in witnesses. -/
def rampBuffer : Nat → Rat := fun n => (n : Rat)

/-- A trivial voice view over `Nat` voices, used in witnesses. -/
def viewNat : VoiceView Nat :=
  { priority := fun _ => 0, voiceLength := fun _ => 0, exclusiveClass := fun _ => 0,
    channel := fun _ => 0, key := fun _ => 0 }

/-- A mono voice with audible note gain, used in witnesses. -/
def voiceM : Voice Unit :=
  { _stereo := false
    _left := { note_gain := 1, instrument_pan := 0, instrument_reverb := 0,
               instrument_chorus := 0, previous_mix_gain := 0, current_mix_gain := 7,
               dsp := () }
    _right := { note_gain := 0, instrument_pan := 0, instrument_reverb := 0,
                instrument_chorus := 0, previous_mix_gain := 0, current_mix_gain := 3,
                dsp := () }
    _previous_reverb_send := 0, _previous_chorus_send := 0
    _current_reverb_send := 0, _current_chorus_send := 0
    _exclusive_class := 0, _channel := 0, _key := 60, _velocity := 100
    _voice_state := voice_state_t.VOICE_STATE_PLAYING, _voice_length := 64 }

/-- A channel whose pan readout is exactly `-50` (raw pan 0). -/
def chanHardLeft : Channel :=
  { Channel.init false with _pan := 0 }

/-- A SoundFont query that fails for every preset: the bank is empty. -/
def gkiNone : Nat → Nat → Nat → Nat → Option (KeyInfo Unit) := fun _ _ _ _ => none

/-- A default-constructed `sf::key_info_t`: the exclusive-class generator
lookup on its empty generator map yields the supplied default 0. -/
def ki0U : KeyInfo Unit := { stereo := false, left_exclusive_class := 0, left := (), right := () }

/-- A freshly constructed synthesizer model: 16 channels, an 8-voice pool,
no active voice. -/
def synth0 : SynthModel Nat :=
  { channels := Synthesizer.initChannels
    voices := { _voices := List.replicate 8 0, _nb_active_voices := 0 } }

/-- A volume envelope sitting in the release stage with release level 0. -/
noncomputable def envRel : VolumeEnvelope :=
  { sample_rate := 1, attack_slope := 0, decay_slope := 0, release_slope := 0,
    attack_start_time := 0, hold_start_time := 0, decay_start_time := 0,
    release_start_time := 0, sustain_level := 0, release_level := 0,
    nb_processed_samples := 0, stage := envelope_stage_t.ENV_STAGE_RELEASE,
    value := 0, priority := 0 }

/-! # Theorems -/

/-! ## Claim C9: resetControllers frame -/

theorem toInt16_eq_of_lt {x : Nat} (h : x < 32768) : toInt16 x = (x : Int) := by
  unfold toInt16
  have hm : x % 65536 = x := Nat.mod_eq_of_lt (by omega)
  rw [hm, if_pos h]

/-- C9: `Channel::resetControllers()` sets modulation to 0, expression to
`127 * 128`, sustain to `false`, the RPN selector to unset (`-1`) and the
stored pitch bend to 0, and leaves the bank, preset, volume and pan fields
unchanged. -/
theorem C9_resetControllers_frame (c : Channel) :
    (c.resetControllers)._modulation = 0 ∧
    (c.resetControllers)._expression = 127 * 128 ∧
    (c.resetControllers)._sustain = false ∧
    (c.resetControllers)._rpn = -1 ∧
    (c.resetControllers)._pitch_bend = 0 ∧
    (c.resetControllers)._bank = c._bank ∧
    (c.resetControllers)._preset = c._preset ∧
    (c.resetControllers)._volume = c._volume ∧
    (c.resetControllers)._pan = c._pan := by
  refine ⟨rfl, ?_, rfl, rfl, rfl, rfl, rfl, rfl, rfl⟩
  show (127 <<< 7 : Nat) = 127 * 128
  decide

/-! ## Claim C2: the pitch-bend readout

`Channel::setPitchBend` stores the normalized value
`(combined - 8192) / 8192`, but the `Channel::pitchBend()` readout is
`pitchBendRange() * _pitch_bend`, NOT the stored normalized value: it scales
with the configured pitch bend range (2 semitones after `reset()`). -/

/-- C2 counterexample: on a freshly reset (non-percussion) channel, after
`setPitchBend(0, 127)` the `pitchBend()` readout is
`2 * (16256 - 8192) / 8192 = 1.96875`, not the normalized
`(16256 - 8192) / 8192 = 0.984375` that the claim requires. -/
theorem C2_pitchBend_counterexample :
    ¬ (((Channel.init false).setPitchBend 0 127).pitchBend
        = ((((0 : Nat) ||| ((127 : Nat) <<< 7) : Nat) : Rat) - 8192) / 8192) := by
  have ha : ((256 : Nat) &&& 127) = 0 := by decide
  have hs : ((256 : Nat) >>> 7) = 2 := by decide
  have he : (((0 : Nat) ||| ((127 : Nat) <<< 7)) : Nat) = 16256 := by decide
  have h : ((Channel.init false).setPitchBend 0 127).pitchBend
      = 2 * ((16256 - 8192) / 8192 : Rat) := by
    simp [Channel.init, Channel.reset, Channel.setPitchBend, Channel.pitchBend,
      Channel.pitchBendRange, toInt16, ha, hs, he]
    norm_num
  rw [h, he]
  norm_num

/-- C2 amended: for MIDI data bytes `value1, value2 < 128`, the STORED
pitch-bend field is the normalized `(combined_14bit - 8192) / 8192`, which
lies in `[-1, 1]`; the derived `pitchBend()` readout equals
`pitchBendRange()` times that normalized value, so it depends on the
channel's configured pitch bend range. -/
theorem C2_pitchBend_readout (c : Channel) (value1 value2 : Nat)
    (h1 : value1 < 128) (h2 : value2 < 128) :
    ((c.setPitchBend value1 value2)._pitch_bend
        = (((value1 ||| (value2 <<< 7) : Nat) : Rat) - 8192) / 8192) ∧
    ((c.setPitchBend value1 value2).pitchBend
        = c.pitchBendRange * ((((value1 ||| (value2 <<< 7) : Nat) : Rat) - 8192) / 8192)) ∧
    (-1 ≤ (c.setPitchBend value1 value2)._pitch_bend) ∧
    ((c.setPitchBend value1 value2)._pitch_bend ≤ 1) := by
  have hlt : value1 ||| (value2 <<< 7) < 16384 := by
    have hv2 : value2 <<< 7 < 16384 := by
      rw [Nat.shiftLeft_eq]
      omega
    have hv1 : value1 < 16384 := by omega
    calc value1 ||| (value2 <<< 7) < 2 ^ 14 :=
          Nat.or_lt_two_pow (n := 14) (by norm_num at hv1 ⊢; omega) (by norm_num at hv2 ⊢; omega)
      _ = 16384 := by norm_num
  have hcast : (toInt16 (value1 ||| (value2 <<< 7)) : Rat)
      = ((value1 ||| (value2 <<< 7) : Nat) : Rat) := by
    rw [toInt16_eq_of_lt (by omega)]
    push_cast
    ring
  have hstored : (c.setPitchBend value1 value2)._pitch_bend
      = (((value1 ||| (value2 <<< 7) : Nat) : Rat) - 8192) / 8192 := by
    show (1 / 8192 : Rat) * ((toInt16 (value1 ||| (value2 <<< 7)) : Rat) - 8192) = _
    rw [hcast]
    ring
  have hub : ((value1 ||| (value2 <<< 7) : Nat) : Rat) ≤ 16383 := by
    have : value1 ||| (value2 <<< 7) ≤ 16383 := by omega
    exact_mod_cast this
  have hlb : (0 : Rat) ≤ ((value1 ||| (value2 <<< 7) : Nat) : Rat) := by positivity
  refine ⟨hstored, ?_, ?_, ?_⟩
  · show (c.setPitchBend value1 value2).pitchBendRange
        * (c.setPitchBend value1 value2)._pitch_bend = _
    rw [hstored]
    rfl
  · rw [hstored]
    rw [le_div_iff (by norm_num : (0 : Rat) < 8192)]
    linarith
  · rw [hstored]
    rw [div_le_one (by norm_num : (0 : Rat) < 8192)]
    linarith

/-- C2 witness: the amended statement instantiated at a reset channel and
`setPitchBend(0, 127)`. -/
theorem C2_pitchBend_readout_witness :
    (((Channel.init false).setPitchBend 0 127)._pitch_bend
        = ((((0 : Nat) ||| ((127 : Nat) <<< 7) : Nat) : Rat) - 8192) / 8192) ∧
    (((Channel.init false).setPitchBend 0 127).pitchBend
        = (Channel.init false).pitchBendRange
            * (((((0 : Nat) ||| ((127 : Nat) <<< 7) : Nat) : Rat) - 8192) / 8192)) ∧
    (-1 ≤ ((Channel.init false).setPitchBend 0 127)._pitch_bend) ∧
    (((Channel.init false).setPitchBend 0 127)._pitch_bend ≤ 1) :=
  C2_pitchBend_readout (Channel.init false) 0 127 (by decide) (by decide)

/-! ## Claim C6: Sampler, non-looping end handling -/

theorem Sampler.advanceIndex_nonloop (s : Sampler) (ratio ci : Rat)
    (hloop : s._looping = false) : s.advanceIndex ratio ci = ci + ratio := by
  simp [Sampler.advanceIndex, hloop]

/-- In non-looping mode, if the end is reached for the first time after
exactly `k` produced samples (at loop position `i + k`, with `i + k > 0`),
the loop emits the `k` interpolated samples, zero-fills the rest and stops
with the read position advanced `k` times. -/
theorem Sampler.go_nonloop_zerofill (s : Sampler) (buffer : Nat → Rat) (ratio : Rat)
    (hloop : s._looping = false) (k : Nat) :
    ∀ (rem i : Nat) (ci : Rat), k < rem → 0 < i + k →
      (∀ j, j < k → floorIdx (ci + j * ratio) < s._end) →
      s._end ≤ floorIdx (ci + k * ratio) →
      Sampler.go s buffer ratio rem i ci =
        some ((List.range k).map (fun j : Nat => s.interp buffer (ci + (j : Rat) * ratio))
                ++ List.replicate (rem - k) 0, ci + k * ratio) := by
  induction k with
  | zero =>
    intro rem i ci hk hpos _ hdet
    obtain ⟨r, rfl⟩ : ∃ r, rem = r + 1 := ⟨rem - 1, by omega⟩
    have hci : ci + ((0 : Nat) : Rat) * ratio = ci := by push_cast; ring
    rw [hci] at hdet
    simp only [Sampler.go]
    rw [if_pos ⟨hloop, hdet⟩, if_neg (by omega : ¬ i = 0)]
    simp [hci]
  | succ k ih =>
    intro rem i ci hk hpos hfirst hdet
    obtain ⟨r, rfl⟩ : ∃ r, rem = r + 1 := ⟨rem - 1, by omega⟩
    have h0 : floorIdx ci < s._end := by
      have := hfirst 0 (by omega)
      rw [show ci + ((0 : Nat) : Rat) * ratio = ci by push_cast; ring] at this
      exact this
    simp only [Sampler.go]
    rw [if_neg (by rintro ⟨-, hb⟩; omega)]
    rw [Sampler.advanceIndex_nonloop s ratio ci hloop]
    rw [ih r (i + 1) (ci + ratio) (by omega) (by omega)
      (fun j hj => by
        have := hfirst (j + 1) (by omega)
        rw [show ci + ((j + 1 : Nat) : Rat) * ratio = ci + ratio + (j : Rat) * ratio
          by push_cast; ring] at this
        exact this)
      (by
        rw [show ci + ratio + (k : Rat) * ratio = ci + ((k + 1 : Nat) : Rat) * ratio
          by push_cast; ring]
        exact hdet)]
    have hlist : (List.range (k + 1)).map
          (fun j : Nat => s.interp buffer (ci + (j : Rat) * ratio))
        = s.interp buffer ci ::
            (List.range k).map (fun j : Nat => s.interp buffer (ci + ratio + (j : Rat) * ratio)) := by
      rw [List.range_succ_eq_map, List.map_cons, List.map_map]
      refine congrArg₂ List.cons (congrArg _ (by push_cast; ring)) ?_
      refine List.map_congr_left (fun j _ => ?_)
      show s.interp buffer (ci + ((Nat.succ j : Nat) : Rat) * ratio)
          = s.interp buffer (ci + ratio + (j : Rat) * ratio)
      exact congrArg _ (by push_cast; ring)
    have hsub : r + 1 - (k + 1) = r - k := by omega
    have hcf : ci + ((k + 1 : Nat) : Rat) * ratio = ci + ratio + (k : Rat) * ratio := by
      push_cast; ring
    rw [hlist, hsub, hcf, List.cons_append]

/-- C6: for a non-looping sampler, a `process` call with `size > 0` returns
`false` (here `none`, writing nothing) when `floor(current_index)` has
already reached the sample end at the first output sample; and when the end
is first reached at position `i > 0`, it emits the `i` interpolated samples,
fills `dest[i..size)` with zeros and returns `true`. -/
theorem C6_sampler_nonloop_end (s : Sampler) (buffer : Nat → Rat) (ratio : Rat)
    (size i : Nat) (hloop : s._looping = false) (hsz : 0 < size) :
    (s._end ≤ floorIdx s._current_index → s.process buffer ratio size = none)
  ∧ (0 < i → i < size →
      (∀ j, j < i → floorIdx (s._current_index + j * ratio) < s._end) →
      s._end ≤ floorIdx (s._current_index + i * ratio) →
      s.process buffer ratio size =
        some ((List.range i).map (fun j : Nat => s.interp buffer (s._current_index + (j : Rat) * ratio))
                ++ List.replicate (size - i) 0, s._current_index + i * ratio)) := by
  constructor
  · intro hdet
    obtain ⟨r, rfl⟩ : ∃ r, size = r + 1 := ⟨size - 1, by omega⟩
    unfold Sampler.process
    simp only [Sampler.go]
    rw [if_pos ⟨hloop, hdet⟩]
    simp
  · intro hpos hlt hfirst hdet
    unfold Sampler.process
    exact Sampler.go_nonloop_zerofill s buffer ratio hloop i size 0 s._current_index
      hlt (by omega) hfirst hdet

/-- C6 witness: the non-looping sampler over `[0, 2)` with unit pitch ratio
and a 4-sample request first reaches the end at position 2; the first two
samples are interpolated, the last two are zero. -/
theorem C6_sampler_nonloop_end_witness :
    samplerNL.process rampBuffer 1 4 =
      some ((List.range 2).map
              (fun j : Nat => samplerNL.interp rampBuffer (samplerNL._current_index + (j : Rat) * 1))
              ++ List.replicate (4 - 2) 0, samplerNL._current_index + 2 * 1) :=
  (C6_sampler_nonloop_end samplerNL rampBuffer 1 4 2 rfl (by decide)).2
    (by decide) (by decide)
    (by
      intro j hj
      interval_cases j <;> simp [floorIdx, samplerNL])
    (by simp [floorIdx, samplerNL])

/-! ## Claim C8: VolumeEnvelope release stage -/

theorem exp_cutoff_le_exp (x : ℝ) : exp_cutoff x ≤ Real.exp x := by
  unfold exp_cutoff
  split
  · exact le_of_lt (Real.exp_pos x)
  · exact le_rfl

theorem VolumeEnvelope.process_release_slope (e : VolumeEnvelope) (n : Nat) :
    (e.process n).2.release_slope = e.release_slope := by
  simp only [VolumeEnvelope.process]
  split <;> rfl

/-- C8: in the release stage, `process(n)` computes
`value = release_level * exp_cutoff(release_slope * (t - release_start_time))`
(the cutoff returning 0 below the non-audible threshold), hence
`value ≤ release_level * exp(release_slope * t_into_release)` when the
release level is non-negative, and the call returns `false` exactly when the
computed value is not greater than `0.001`; the slope set up by `start` is
`-9.226 / release`. -/
theorem C8_volume_envelope_release (e : VolumeEnvelope) (n : Nat) (sr : Nat)
    (delay attack hold decay sustain release : ℝ)
    (hstage : e.stage = envelope_stage_t.ENV_STAGE_RELEASE)
    (hlvl : 0 ≤ e.release_level) :
    ((e.process n).2.value
        = e.release_level * exp_cutoff (e.release_slope *
            (((e.nb_processed_samples + n : Nat) : ℝ) / (e.sample_rate : ℝ)
              - e.release_start_time))) ∧
    ((e.process n).2.value
        ≤ e.release_level * Real.exp (e.release_slope *
            (((e.nb_processed_samples + n : Nat) : ℝ) / (e.sample_rate : ℝ)
              - e.release_start_time))) ∧
    (((e.process n).1 = false) ↔ (e.process n).2.value ≤ NON_AUDIBLE_R) ∧
    ((VolumeEnvelope.start sr delay attack hold decay sustain release).release_slope
        = -(9226 / 1000) / release) := by
  have hadv : VolumeEnvelope.advanceStage e
      (((e.nb_processed_samples + n : Nat) : ℝ) / (e.sample_rate : ℝ))
      = envelope_stage_t.ENV_STAGE_RELEASE := by
    simp [VolumeEnvelope.advanceStage, hstage]
  have hval : (e.process n).2.value
      = e.release_level * exp_cutoff (e.release_slope *
          (((e.nb_processed_samples + n : Nat) : ℝ) / (e.sample_rate : ℝ)
            - e.release_start_time)) := by
    simp only [VolumeEnvelope.process, hadv]
  have hres : (e.process n).1
      = decide (NON_AUDIBLE_R < e.release_level * exp_cutoff (e.release_slope *
          (((e.nb_processed_samples + n : Nat) : ℝ) / (e.sample_rate : ℝ)
            - e.release_start_time))) := by
    simp only [VolumeEnvelope.process, hadv]
  refine ⟨hval, ?_, ?_, ?_⟩
  · rw [hval]
    exact mul_le_mul_of_nonneg_left (exp_cutoff_le_exp _) hlvl
  · rw [hres, hval]
    simp [not_lt]
  · rw [VolumeEnvelope.start, VolumeEnvelope.process_release_slope]

/-- C8 witness: the release-stage envelope with release level 0. -/
theorem C8_volume_envelope_release_witness :
    ((envRel.process 0).2.value
        = envRel.release_level * exp_cutoff (envRel.release_slope *
            (((envRel.nb_processed_samples + 0 : Nat) : ℝ) / (envRel.sample_rate : ℝ)
              - envRel.release_start_time))) ∧
    ((envRel.process 0).2.value
        ≤ envRel.release_level * Real.exp (envRel.release_slope *
            (((envRel.nb_processed_samples + 0 : Nat) : ℝ) / (envRel.sample_rate : ℝ)
              - envRel.release_start_time))) ∧
    (((envRel.process 0).1 = false) ↔ (envRel.process 0).2.value ≤ NON_AUDIBLE_R) ∧
    ((VolumeEnvelope.start 1 0 1 0 1 (1/2) 1).release_slope = -(9226 / 1000) / 1) :=
  C8_volume_envelope_release envRel 0 1 0 1 0 1 (1/2) 1 rfl (by simp [envRel])

/-! ## Claim C3: the active-voice count never exceeds the capacity -/

theorem VoiceCollection.processLoop_spec (procV : V → Bool × V) (v0 : V) :
    ∀ (k : Nat) (s : VoiceCollection V) (i : Nat), s._nb_active_voices - i ≤ k →
      (VoiceCollection.processLoop procV v0 s i)._nb_active_voices ≤ s._nb_active_voices ∧
      (VoiceCollection.processLoop procV v0 s i)._voices.length = s._voices.length := by
  intro k
  induction k with
  | zero =>
    intro s i h
    rw [VoiceCollection.processLoop]
    rw [dif_neg (by omega)]
    exact ⟨le_rfl, rfl⟩
  | succ k ih =>
    intro s i h
    rw [VoiceCollection.processLoop]
    by_cases hi : i < s._nb_active_voices
    · rw [dif_pos hi]
      simp only []
      split
      · obtain ⟨h1, h2⟩ := ih
          { _voices := s._voices.set i (procV (s._voices.getD i v0)).2,
            _nb_active_voices := s._nb_active_voices } (i + 1)
          (by show s._nb_active_voices - (i + 1) ≤ k; omega)
        exact ⟨h1, h2.trans (by simp)⟩
      · obtain ⟨h1, h2⟩ := ih
          { _voices := ((s._voices.set i (procV (s._voices.getD i v0)).2).set i
              ((s._voices.set i (procV (s._voices.getD i v0)).2).getD (s._nb_active_voices - 1) v0)).set
              (s._nb_active_voices - 1)
              ((s._voices.set i (procV (s._voices.getD i v0)).2).getD i v0),
            _nb_active_voices := s._nb_active_voices - 1 } i
          (by show s._nb_active_voices - 1 - i ≤ k; omega)
        exact ⟨le_trans h1 (by show s._nb_active_voices - 1 ≤ s._nb_active_voices; omega),
          h2.trans (by simp)⟩
    · rw [dif_neg hi]
      exact ⟨le_rfl, rfl⟩

theorem VoiceCollection.request_spec (view : VoiceView V) (channel ec : Nat)
    (s : VoiceCollection V) :
    (((VoiceCollection.request view channel ec s).2._nb_active_voices = s._nb_active_voices)
      ∨ (s._nb_active_voices < s._voices.length ∧
          (VoiceCollection.request view channel ec s).2._nb_active_voices
            = s._nb_active_voices + 1)) ∧
    (VoiceCollection.request view channel ec s).2._voices = s._voices := by
  unfold VoiceCollection.request
  cases hh : (if ec ≠ 0 then
      (s._voices.take s._nb_active_voices).findIdx?
        (fun v => view.exclusiveClass v == ec && view.channel v == channel)
    else none) with
  | some i => exact ⟨Or.inl rfl, rfl⟩
  | none =>
    by_cases hfree : s._nb_active_voices < s._voices.length
    · rw [if_pos hfree]
      exact ⟨Or.inr ⟨hfree, rfl⟩, rfl⟩
    · rw [if_neg hfree]
      exact ⟨Or.inl rfl, rfl⟩

theorem PoolOp.apply_inv (view : VoiceView V) (procV : V → Bool × V) (v0 : V)
    (op : PoolOp V) (s : VoiceCollection V)
    (h : s._nb_active_voices ≤ s._voices.length) :
    (PoolOp.apply view procV v0 op s)._nb_active_voices
        ≤ (PoolOp.apply view procV v0 op s)._voices.length ∧
    (PoolOp.apply view procV v0 op s)._voices.length = s._voices.length := by
  cases op with
  | request ch ec =>
    obtain ⟨hnb, hvs⟩ := VoiceCollection.request_spec view ch ec s
    rcases hnb with hnb | ⟨hlt, hnb⟩ <;>
      simp only [PoolOp.apply, hnb, hvs] <;> exact ⟨by omega, by simp⟩
  | processAll =>
    obtain ⟨h1, h2⟩ := VoiceCollection.processLoop_spec procV v0
      (s._nb_active_voices) s 0 (by omega)
    exact ⟨by simpa [PoolOp.apply, VoiceCollection.process, h2] using le_trans h1 h,
      by simpa [PoolOp.apply, VoiceCollection.process] using h2⟩
  | clearAll => exact ⟨by simp [PoolOp.apply, VoiceCollection.clear], by simp [PoolOp.apply, VoiceCollection.clear]⟩
  | setSlot i v => exact ⟨by simp [PoolOp.apply]; omega, by simp [PoolOp.apply]⟩

theorem PoolOp.run_inv (view : VoiceView V) (procV : V → Bool × V) (v0 : V)
    (ops : List (PoolOp V)) :
    ∀ (s : VoiceCollection V), s._nb_active_voices ≤ s._voices.length →
      (PoolOp.run view procV v0 ops s)._nb_active_voices
          ≤ (PoolOp.run view procV v0 ops s)._voices.length ∧
      (PoolOp.run view procV v0 ops s)._voices.length = s._voices.length := by
  induction ops with
  | nil => intro s h; exact ⟨h, rfl⟩
  | cons op rest ih =>
    intro s h
    obtain ⟨h1, h2⟩ := PoolOp.apply_inv view procV v0 op s h
    obtain ⟨h3, h4⟩ := ih (PoolOp.apply view procV v0 op s) h1
    exact ⟨h3, by rw [PoolOp.run] at *; simpa [List.foldl_cons, h2] using h4.trans h2⟩

/-- C3: starting from any state whose active count is within the capacity
(the pool is built with `maximumPolyphony` voices and count 0), the count
stays within the capacity after any sequence of pool operations — the
operations `noteOn`, `noteOff`, `allNotesOff`, `render` and `reset` perform
on the collection — and the capacity itself never changes; `request`
increments the count only when it is below the capacity (otherwise it
reuses an exclusive-class voice or returns the eviction candidate without
touching the count), and `process` and `clear` only decrease it. -/
theorem C3_polyphony_bound (view : VoiceView V) (procV : V → Bool × V) (v0 : V)
    (ops : List (PoolOp V)) (channel ec : Nat) (s : VoiceCollection V)
    (hinv : s._nb_active_voices ≤ s._voices.length) :
    ((PoolOp.run view procV v0 ops s)._nb_active_voices
        ≤ (PoolOp.run view procV v0 ops s)._voices.length) ∧
    ((PoolOp.run view procV v0 ops s)._voices.length = s._voices.length) ∧
    (((VoiceCollection.request view channel ec s).2._nb_active_voices = s._nb_active_voices)
      ∨ (s._nb_active_voices < s._voices.length ∧
          (VoiceCollection.request view channel ec s).2._nb_active_voices
            = s._nb_active_voices + 1)) ∧
    ((VoiceCollection.process procV v0 s)._nb_active_voices ≤ s._nb_active_voices) ∧
    ((VoiceCollection.clear s)._nb_active_voices = 0) := by
  obtain ⟨h1, h2⟩ := PoolOp.run_inv view procV v0 ops s hinv
  refine ⟨h1, h2, (VoiceCollection.request_spec view channel ec s).1, ?_, rfl⟩
  exact (VoiceCollection.processLoop_spec procV v0 (s._nb_active_voices) s 0 (by omega)).1

/-- C3 witness: a two-voice pool, one request, one process pass and a clear. -/
theorem C3_polyphony_bound_witness :
    ((PoolOp.run viewNat (fun v => (true, v)) 0
        [PoolOp.request 0 0, PoolOp.processAll, PoolOp.clearAll]
        ⟨[0, 0], 0⟩)._nb_active_voices
      ≤ (PoolOp.run viewNat (fun v => (true, v)) 0
        [PoolOp.request 0 0, PoolOp.processAll, PoolOp.clearAll]
        ⟨[0, 0], 0⟩)._voices.length) ∧
    ((PoolOp.run viewNat (fun v => (true, v)) 0
        [PoolOp.request 0 0, PoolOp.processAll, PoolOp.clearAll]
        ⟨[0, 0], 0⟩)._voices.length = ([0, 0] : List Nat).length) ∧
    (((VoiceCollection.request viewNat 0 0 ⟨[0, 0], 0⟩).2._nb_active_voices = 0)
      ∨ ((0 : Nat) < ([0, 0] : List Nat).length ∧
          (VoiceCollection.request viewNat 0 0 ⟨[0, 0], 0⟩).2._nb_active_voices = 0 + 1)) ∧
    ((VoiceCollection.process (fun v => (true, v)) 0 ⟨[0, 0], 0⟩)._nb_active_voices ≤ 0) ∧
    ((VoiceCollection.clear (⟨[0, 0], 0⟩ : VoiceCollection Nat))._nb_active_voices = 0) :=
  C3_polyphony_bound viewNat (fun v => (true, v)) 0
    [PoolOp.request 0 0, PoolOp.processAll, PoolOp.clearAll] 0 0 ⟨[0, 0], 0⟩ (by decide)

/-! ## Claim C4: render is concatenative -/

theorem Synthesizer.refill_offset_lt [Inhabited α] (blockSize : Nat) (blocks : Nat → List α)
    (s : RenderState α) (hB : 0 < blockSize) (hoff : s._blocks_offset ≤ blockSize) :
    (Synthesizer.refillIfNeeded blockSize blocks s)._blocks_offset < blockSize := by
  unfold Synthesizer.refillIfNeeded
  split
  · exact hB
  · rename_i hne
    omega

theorem Synthesizer.refill_idem [Inhabited α] (blockSize : Nat) (blocks : Nat → List α)
    (s : RenderState α) (hB : 0 < blockSize) (hoff : s._blocks_offset ≤ blockSize) :
    Synthesizer.refillIfNeeded blockSize blocks (Synthesizer.refillIfNeeded blockSize blocks s)
      = Synthesizer.refillIfNeeded blockSize blocks s := by
  have h := Synthesizer.refill_offset_lt blockSize blocks s hB hoff
  generalize Synthesizer.refillIfNeeded blockSize blocks s = t at h ⊢
  unfold Synthesizer.refillIfNeeded
  rw [if_neg (by omega)]

theorem Synthesizer.sampleGo_add [Inhabited α] (blockSize : Nat) (blocks : Nat → List α)
    (n : Nat) :
    ∀ (m : Nat) (s : RenderState α),
      Synthesizer.sampleGo blockSize blocks (n + m) s
        = ((Synthesizer.sampleGo blockSize blocks n s).1
             ++ (Synthesizer.sampleGo blockSize blocks m
                  (Synthesizer.sampleGo blockSize blocks n s).2).1,
           (Synthesizer.sampleGo blockSize blocks m
                  (Synthesizer.sampleGo blockSize blocks n s).2).2) := by
  induction n with
  | zero =>
    intro m s
    simp [Synthesizer.sampleGo]
  | succ n ih =>
    intro m s
    have hnm : n + 1 + m = (n + m) + 1 := by omega
    rw [hnm]
    simp only [Synthesizer.sampleGo]
    rw [ih]
    simp

theorem Synthesizer.sampleGo_offset_le [Inhabited α] (blockSize : Nat) (blocks : Nat → List α)
    (hB : 0 < blockSize) (n : Nat) :
    ∀ s : RenderState α, s._blocks_offset ≤ blockSize →
      (Synthesizer.sampleGo blockSize blocks n s).2._blocks_offset ≤ blockSize := by
  induction n with
  | zero =>
    intro s h
    simpa [Synthesizer.sampleGo] using h
  | succ n ih =>
    intro s h
    have h1 := Synthesizer.refill_offset_lt blockSize blocks s hB h
    simp only [Synthesizer.sampleGo]
    exact ih _ (by simp; omega)

/-- Consuming `rem` frames that all fit in the current block emits exactly
the block slice `[offset, offset + rem)` and advances the offset by `rem`. -/
theorem Synthesizer.sampleGo_chunk [Inhabited α] (blockSize : Nat) (blocks : Nat → List α)
    (rem : Nat) :
    ∀ s1 : RenderState α, s1._blocks_offset + rem ≤ blockSize →
      Synthesizer.sampleGo blockSize blocks rem s1
        = ((List.range rem).map (fun t => s1._block.getD (s1._blocks_offset + t) default),
           { s1 with _blocks_offset := s1._blocks_offset + rem }) := by
  induction rem with
  | zero =>
    intro s1 h
    simp [Synthesizer.sampleGo]
  | succ rem ih =>
    intro s1 h
    have hrefill : Synthesizer.refillIfNeeded blockSize blocks s1 = s1 := by
      unfold Synthesizer.refillIfNeeded
      rw [if_neg (by omega)]
    simp only [Synthesizer.sampleGo, hrefill]
    rw [ih { s1 with _blocks_offset := s1._blocks_offset + 1 } (by simp; omega)]
    simp only []
    refine congrArg₂ Prod.mk ?_ ?_
    · rw [List.range_succ_eq_map, List.map_cons, List.map_map]
      refine congrArg₂ List.cons (by rw [Nat.add_zero]) ?_
      refine List.map_congr_left (fun t _ => ?_)
      show s1._block.getD (s1._blocks_offset + 1 + t) default
          = s1._block.getD (s1._blocks_offset + Nat.succ t) default
      rw [show s1._blocks_offset + 1 + t = s1._blocks_offset + Nat.succ t from by omega]
    · rw [show s1._blocks_offset + 1 + rem = s1._blocks_offset + (rem + 1) from by omega]

/-- The first frame of a `sampleGo` run may refill first; starting from the
refilled state produces the same run. -/
theorem Synthesizer.sampleGo_refill_first [Inhabited α] (blockSize : Nat)
    (blocks : Nat → List α) (m : Nat) (s : RenderState α)
    (hB : 0 < blockSize) (hoff : s._blocks_offset ≤ blockSize) :
    Synthesizer.sampleGo blockSize blocks (m + 1) s
      = Synthesizer.sampleGo blockSize blocks (m + 1)
          (Synthesizer.refillIfNeeded blockSize blocks s) := by
  conv_lhs => rw [Synthesizer.sampleGo]
  conv_rhs => rw [Synthesizer.sampleGo]
  rw [Synthesizer.refill_idem blockSize blocks s hB hoff]

/-- The chunked assembly loop of `Synthesizer::render` equals the
frame-by-frame run. -/
theorem Synthesizer.renderGo_eq_sampleGo [Inhabited α] (blockSize : Nat)
    (blocks : Nat → List α) (hB : 0 < blockSize) :
    ∀ (n : Nat) (s : RenderState α), s._blocks_offset ≤ blockSize →
      Synthesizer.renderGo blockSize blocks n s
        = Synthesizer.sampleGo blockSize blocks n s := by
  intro n
  induction n using Nat.strong_induction_on with
  | _ n ih =>
    intro s hoff
    by_cases hn : n = 0
    · subst hn
      rw [Synthesizer.renderGo]
      rw [dif_pos rfl]
      simp [Synthesizer.sampleGo]
    · have hdead : ¬ blockSize ≤ (Synthesizer.refillIfNeeded blockSize blocks s)._blocks_offset :=
        not_le.mpr (Synthesizer.refill_offset_lt blockSize blocks s hB hoff)
      rw [Synthesizer.renderGo]
      rw [dif_neg hn, dif_neg hdead]
      simp only []
      set s1 := Synthesizer.refillIfNeeded blockSize blocks s with hs1
      set rem := min (blockSize - s1._blocks_offset) n with hrem
      have hoff1 : s1._blocks_offset < blockSize :=
        Synthesizer.refill_offset_lt blockSize blocks s hB hoff
      have hrem1 : 1 ≤ rem := le_min (by omega) (by omega)
      have hremle : rem ≤ n := min_le_right _ _
      have hremoff : rem ≤ blockSize - s1._blocks_offset := min_le_left _ _
      rw [ih (n - rem) (by omega) { s1 with _blocks_offset := s1._blocks_offset + rem }
        (by simp; omega)]
      have hchunk := Synthesizer.sampleGo_chunk blockSize blocks rem s1 (by omega)
      obtain ⟨r, hr⟩ : ∃ r, rem = r + 1 := ⟨rem - 1, by omega⟩
      have hfirst : Synthesizer.sampleGo blockSize blocks rem s
          = Synthesizer.sampleGo blockSize blocks rem s1 := by
        rw [hr]
        exact Synthesizer.sampleGo_refill_first blockSize blocks r s hB hoff
      have hsplit : rem + (n - rem) = n := by omega
      conv_rhs => rw [← hsplit]
      rw [Synthesizer.sampleGo_add, hfirst, hchunk]

/-- C4: rendering is concatenative.  From any state with a valid block
offset, `render(buf, n)` followed by `render(buf + n, m)` produces exactly
the frames of `render(buf, n + m)`, the same final partial-block state
(`_blocks_offset`, accumulator block and number of produced blocks), and the
same `_nb_rendered_samples` counter. -/
theorem C4_render_concat [Inhabited α] (blockSize : Nat) (blocks : Nat → List α)
    (n m nb0 : Nat) (s : RenderState α)
    (hB : 0 < blockSize) (hoff : s._blocks_offset ≤ blockSize) :
    ((Synthesizer.render blockSize blocks (n + m) s nb0).1.1
        = (Synthesizer.render blockSize blocks n s nb0).1.1
            ++ (Synthesizer.render blockSize blocks m
                  (Synthesizer.render blockSize blocks n s nb0).1.2
                  (Synthesizer.render blockSize blocks n s nb0).2).1.1) ∧
    ((Synthesizer.render blockSize blocks (n + m) s nb0).1.2
        = (Synthesizer.render blockSize blocks m
              (Synthesizer.render blockSize blocks n s nb0).1.2
              (Synthesizer.render blockSize blocks n s nb0).2).1.2) ∧
    ((Synthesizer.render blockSize blocks (n + m) s nb0).2
        = (Synthesizer.render blockSize blocks m
              (Synthesizer.render blockSize blocks n s nb0).1.2
              (Synthesizer.render blockSize blocks n s nb0).2).2) := by
  have hs1 : ((Synthesizer.render blockSize blocks n s nb0).1.2)
      = (Synthesizer.sampleGo blockSize blocks n s).2 := by
    unfold Synthesizer.render
    rw [Synthesizer.renderGo_eq_sampleGo blockSize blocks hB n s hoff]
  have hoff1 : (Synthesizer.sampleGo blockSize blocks n s).2._blocks_offset ≤ blockSize :=
    Synthesizer.sampleGo_offset_le blockSize blocks hB n s hoff
  refine ⟨?_, ?_, ?_⟩
  · show (Synthesizer.renderGo blockSize blocks (n + m) s).1 = _
    rw [Synthesizer.renderGo_eq_sampleGo blockSize blocks hB (n + m) s hoff,
      Synthesizer.sampleGo_add]
    show _ = (Synthesizer.renderGo blockSize blocks n s).1
        ++ (Synthesizer.renderGo blockSize blocks m (Synthesizer.render blockSize blocks n s nb0).1.2).1
    rw [hs1, Synthesizer.renderGo_eq_sampleGo blockSize blocks hB n s hoff,
      Synthesizer.renderGo_eq_sampleGo blockSize blocks hB m _ hoff1]
  · show (Synthesizer.renderGo blockSize blocks (n + m) s).2 = _
    rw [Synthesizer.renderGo_eq_sampleGo blockSize blocks hB (n + m) s hoff,
      Synthesizer.sampleGo_add]
    show _ = (Synthesizer.renderGo blockSize blocks m (Synthesizer.render blockSize blocks n s nb0).1.2).2
    rw [hs1, Synthesizer.renderGo_eq_sampleGo blockSize blocks hB m _ hoff1]
  · show nb0 + (n + m) = (nb0 + n) + m
    omega

/-- C4 witness: block size 2, a constant block stream, a 3-frame render
followed by a 2-frame render from the initial state (`offset = blockSize`). -/
theorem C4_render_concat_witness :
    ((Synthesizer.render 2 (fun _ => ([0, 0] : List Rat)) (3 + 2) ⟨2, [], 0⟩ 0).1.1
        = (Synthesizer.render 2 (fun _ => ([0, 0] : List Rat)) 3 ⟨2, [], 0⟩ 0).1.1
            ++ (Synthesizer.render 2 (fun _ => ([0, 0] : List Rat)) 2
                  (Synthesizer.render 2 (fun _ => ([0, 0] : List Rat)) 3 ⟨2, [], 0⟩ 0).1.2
                  (Synthesizer.render 2 (fun _ => ([0, 0] : List Rat)) 3 ⟨2, [], 0⟩ 0).2).1.1) ∧
    ((Synthesizer.render 2 (fun _ => ([0, 0] : List Rat)) (3 + 2) ⟨2, [], 0⟩ 0).1.2
        = (Synthesizer.render 2 (fun _ => ([0, 0] : List Rat)) 2
              (Synthesizer.render 2 (fun _ => ([0, 0] : List Rat)) 3 ⟨2, [], 0⟩ 0).1.2
              (Synthesizer.render 2 (fun _ => ([0, 0] : List Rat)) 3 ⟨2, [], 0⟩ 0).2).1.2) ∧
    ((Synthesizer.render 2 (fun _ => ([0, 0] : List Rat)) (3 + 2) ⟨2, [], 0⟩ 0).2
        = (Synthesizer.render 2 (fun _ => ([0, 0] : List Rat)) 2
              (Synthesizer.render 2 (fun _ => ([0, 0] : List Rat)) 3 ⟨2, [], 0⟩ 0).1.2
              (Synthesizer.render 2 (fun _ => ([0, 0] : List Rat)) 3 ⟨2, [], 0⟩ 0).2).2) :=
  C4_render_concat 2 (fun _ => ([0, 0] : List Rat)) 3 2 0 ⟨2, [], 0⟩ (by decide) (by decide)

/-! ## Claim C7: Sampler, looping wrap

The wrap subtracts `loop_end - loop_start` exactly once.  When the pitch
ratio exceeds the loop length, a single advance can overshoot `loop_end` by
more than one loop length, so the wrapped index is still `≥ loop_end`: the
claimed invariant `index ∈ [start, loop_end)` fails at the first wrap.  It
holds whenever `0 ≤ ratio ≤ loop_end - loop_start` (and the loop points are
well-formed, `start ≤ loop_start < loop_end`; the specification assumes
zero-length loops do not occur). -/

/-- C7 counterexample: the looping sampler with loop `[0, 1)` and pitch
ratio 2 starts inside `[start, loop_end)`; after one processed sample the
advance crosses `loop_end`, wraps by exactly one loop length, and the
resulting index 1 is already outside `[start, loop_end) = [0, 1)`. -/
theorem C7_loop_counterexample :
    samplerLP._looping = true ∧
    (samplerLP._start : Rat) ≤ samplerLP._current_index ∧
    samplerLP._current_index < (samplerLP._loop_end : Rat) ∧
    samplerLP.process rampBuffer 2 1 = some ([0], 1) ∧
    ¬ ((1 : Rat) < (samplerLP._loop_end : Rat)) := by
  refine ⟨rfl, by norm_num [samplerLP], by norm_num [samplerLP], ?_, by norm_num [samplerLP]⟩
  unfold Sampler.process
  simp only [Sampler.go]
  norm_num [samplerLP, Sampler.interp, Sampler.advanceIndex, Sampler.loopLength,
    floorIdx, rampBuffer]

theorem Sampler.loopLength_cast (s : Sampler) (hwl : s._loop_start < s._loop_end) :
    (s.loopLength : Rat) = (s._loop_end : Rat) - (s._loop_start : Rat) := by
  unfold Sampler.loopLength
  rw [Nat.cast_sub (le_of_lt hwl)]

/-- One advance of a looping sampler keeps the read position inside
`[start, loop_end)` when `0 ≤ ratio ≤ loop_end - loop_start` and the loop is
well-formed. -/
theorem Sampler.advanceIndex_loop_mem (s : Sampler) (ratio : Rat)
    (hloop : s._looping = true)
    (hws : s._start ≤ s._loop_start) (hwl : s._loop_start < s._loop_end)
    (hr0 : 0 ≤ ratio) (hrle : ratio ≤ (s.loopLength : Rat))
    (ci : Rat) (h1 : (s._start : Rat) ≤ ci) (h2 : ci < (s._loop_end : Rat)) :
    (s._start : Rat) ≤ s.advanceIndex ratio ci ∧
      s.advanceIndex ratio ci < (s._loop_end : Rat) := by
  have hcast := Sampler.loopLength_cast s hwl
  have hsl : (s._start : Rat) ≤ (s._loop_start : Rat) := by exact_mod_cast hws
  rw [hcast] at hrle
  simp only [Sampler.advanceIndex]
  split
  case isTrue h =>
    rw [hcast]
    exact ⟨by linarith [h.2], by linarith [h.2]⟩
  case isFalse h =>
    have hc : ¬ ((s._loop_end : Rat) ≤ ci + ratio) := fun hb => h ⟨hloop, hb⟩
    exact ⟨by linarith, by linarith [lt_of_not_le hc]⟩

/-- A whole looping `go` run never returns `false` and keeps the final read
position inside `[start, loop_end)`. -/
theorem Sampler.go_loop_interval (s : Sampler) (buffer : Nat → Rat) (ratio : Rat)
    (hloop : s._looping = true)
    (hws : s._start ≤ s._loop_start) (hwl : s._loop_start < s._loop_end)
    (hr0 : 0 ≤ ratio) (hrle : ratio ≤ (s.loopLength : Rat)) (rem : Nat) :
    ∀ (i : Nat) (ci : Rat), (s._start : Rat) ≤ ci → ci < (s._loop_end : Rat) →
      Sampler.go s buffer ratio rem i ci ≠ none ∧
      (s._start : Rat) ≤ ((Sampler.go s buffer ratio rem i ci).getD ([], 0)).2 ∧
      ((Sampler.go s buffer ratio rem i ci).getD ([], 0)).2 < (s._loop_end : Rat) := by
  induction rem with
  | zero =>
    intro i ci h1 h2
    simp only [Sampler.go]
    exact ⟨by simp, by simpa using h1, by simpa using h2⟩
  | succ rem ih =>
    intro i ci h1 h2
    simp only [Sampler.go]
    rw [if_neg (by rw [hloop]; rintro ⟨hb, -⟩; exact absurd hb (by decide))]
    obtain ⟨hs1, hs2⟩ := Sampler.advanceIndex_loop_mem s ratio hloop hws hwl hr0 hrle ci h1 h2
    obtain ⟨hne, hlb, hub⟩ := ih (i + 1) (s.advanceIndex ratio ci) hs1 hs2
    cases hgo : Sampler.go s buffer ratio rem (i + 1) (s.advanceIndex ratio ci) with
    | none => exact absurd hgo hne
    | some p =>
      rw [hgo] at hlb hub
      exact ⟨by simp, by simpa using hlb, by simpa using hub⟩

/-- C7 amended: for a looping sampler with well-formed loop points
(`start ≤ loop_start < loop_end`) and a pitch ratio with
`0 ≤ ratio ≤ loop_end - loop_start`: every wrap of the advanced index
subtracts exactly `loop_end - loop_start`, the interpolation neighbour
`index2` is wrapped by exactly the same amount when it reaches `loop_end`,
one advance preserves the interval `[start, loop_end)`, and a whole
`process` loop started inside the interval returns `true` with its final
index still inside it. -/
theorem C7_sampler_loop_invariant (s : Sampler) (buffer : Nat → Rat) (ratio : Rat)
    (index2 rem i : Nat) (ci ciW ciS : Rat)
    (hloop : s._looping = true)
    (hws : s._start ≤ s._loop_start) (hwl : s._loop_start < s._loop_end)
    (hr0 : 0 ≤ ratio) (hrle : ratio ≤ (s.loopLength : Rat))
    (hW : (s._loop_end : Rat) ≤ ciW + ratio)
    (hS1 : (s._start : Rat) ≤ ciS) (hS2 : ciS < (s._loop_end : Rat))
    (hI2 : s._loop_end ≤ index2)
    (hc1 : (s._start : Rat) ≤ ci) (hc2 : ci < (s._loop_end : Rat)) :
    (s.advanceIndex ratio ciW = ciW + ratio - (s.loopLength : Rat)) ∧
    ((index2 - s.loopLength) + s.loopLength = index2) ∧
    ((s._start : Rat) ≤ s.advanceIndex ratio ciS ∧
        s.advanceIndex ratio ciS < (s._loop_end : Rat)) ∧
    (Sampler.go s buffer ratio rem i ci ≠ none ∧
        (s._start : Rat) ≤ ((Sampler.go s buffer ratio rem i ci).getD ([], 0)).2 ∧
        ((Sampler.go s buffer ratio rem i ci).getD ([], 0)).2 < (s._loop_end : Rat)) := by
  refine ⟨?_, ?_, ?_, ?_⟩
  · simp only [Sampler.advanceIndex]
    rw [if_pos ⟨hloop, hW⟩]
  · unfold Sampler.loopLength
    omega
  · exact Sampler.advanceIndex_loop_mem s ratio hloop hws hwl hr0 hrle ciS hS1 hS2
  · exact Sampler.go_loop_interval s buffer ratio hloop hws hwl hr0 hrle rem i ci hc1 hc2

/-- C7 witness: the looping sampler with loop `[0, 1)` at unit pitch ratio
(`ratio = loop length`), run for two samples from index 0. -/
theorem C7_sampler_loop_invariant_witness :
    (samplerLP.advanceIndex 1 0 = 0 + 1 - (samplerLP.loopLength : Rat)) ∧
    ((1 - samplerLP.loopLength) + samplerLP.loopLength = 1) ∧
    ((samplerLP._start : Rat) ≤ samplerLP.advanceIndex 1 0 ∧
        samplerLP.advanceIndex 1 0 < (samplerLP._loop_end : Rat)) ∧
    (Sampler.go samplerLP rampBuffer 1 2 0 0 ≠ none ∧
        (samplerLP._start : Rat) ≤ ((Sampler.go samplerLP rampBuffer 1 2 0 0).getD ([], 0)).2 ∧
        ((Sampler.go samplerLP rampBuffer 1 2 0 0).getD ([], 0)).2 < (samplerLP._loop_end : Rat)) :=
  C7_sampler_loop_invariant samplerLP rampBuffer 1 1 2 0 0 0 0
    rfl (by decide) (by decide) (by norm_num) (by norm_num [samplerLP, Sampler.loopLength])
    (by norm_num [samplerLP]) (by norm_num [samplerLP]) (by norm_num [samplerLP])
    (by decide) (by norm_num [samplerLP]) (by norm_num [samplerLP])

/-! ## Claim C5: voice_length bookkeeping -/

theorem Voice.releasePhase_voice_length (sampleRate : Nat) (relTrack : Track σ → Track σ)
    (ch : Channel) (v : Voice σ) :
    (Voice.releasePhase sampleRate relTrack ch v)._voice_length = v._voice_length := by
  unfold Voice.releasePhase
  simp only []
  split_ifs <;> rfl

theorem Voice.tracksPhase_voice_length (procTrack : Channel → Track σ → Bool × Track σ)
    (ch : Channel) (v : Voice σ) :
    (Voice.tracksPhase procTrack ch v).2._voice_length = v._voice_length := by
  unfold Voice.tracksPhase
  simp only []
  split_ifs <;> rfl

theorem Voice.panPhase_voice_length (panFactor : Rat → Rat) (ch : Channel) (v : Voice σ) :
    (Voice.panPhase panFactor ch v)._voice_length = v._voice_length := by
  unfold Voice.panPhase
  simp only []
  split_ifs <;> rfl

theorem Voice.sendsPhase_voice_length (ch : Channel) (v : Voice σ) :
    (Voice.sendsPhase ch v)._voice_length = v._voice_length := by
  unfold Voice.sendsPhase
  simp only []
  split_ifs <;> rfl

theorem Voice.firstBlockSnap_voice_length (v : Voice σ) :
    (Voice.firstBlockSnap v)._voice_length = v._voice_length := by
  unfold Voice.firstBlockSnap
  simp only []
  split_ifs <;> rfl

/-- One `Voice::process()` call adds exactly `blockSize` to `voice_length`
when it returns `true` and leaves it unchanged when it returns `false`. -/
theorem Voice.process_voice_length (blockSize sampleRate : Nat) (panFactor : Rat → Rat)
    (procTrack : Channel → Track σ → Bool × Track σ) (relTrack : Track σ → Track σ)
    (ch : Channel) (v : Voice σ) :
    (Voice.process blockSize sampleRate panFactor procTrack relTrack ch v).2._voice_length
      = (if (Voice.process blockSize sampleRate panFactor procTrack relTrack ch v).1
          then v._voice_length + blockSize else v._voice_length) := by
  have hw : (Voice.shiftGains (Voice.releasePhase sampleRate relTrack ch v))._voice_length
      = v._voice_length := by
    show (Voice.releasePhase sampleRate relTrack ch v)._voice_length = v._voice_length
    exact Voice.releasePhase_voice_length sampleRate relTrack ch v
  have hu : (Voice.tracksPhase procTrack ch
      (Voice.shiftGains (Voice.releasePhase sampleRate relTrack ch v))).2._voice_length
      = v._voice_length :=
    (Voice.tracksPhase_voice_length procTrack ch _).trans hw
  have hv3 : (Voice.firstBlockSnap (Voice.sendsPhase ch (Voice.panPhase panFactor ch
      (Voice.tracksPhase procTrack ch
        (Voice.shiftGains (Voice.releasePhase sampleRate relTrack ch v))).2)))._voice_length
      = v._voice_length := by
    rw [Voice.firstBlockSnap_voice_length, Voice.sendsPhase_voice_length,
      Voice.panPhase_voice_length, hu]
  unfold Voice.process
  by_cases hg : v.inaudible
  · rw [if_pos hg]
    simp
  · rw [if_neg hg]
    simp only []
    by_cases hp : (Voice.tracksPhase procTrack ch
        (Voice.shiftGains (Voice.releasePhase sampleRate relTrack ch v))).1 = false
    · rw [if_pos hp]
      simpa using hu
    · rw [if_neg hp]
      simpa using hv3

theorem Voice.processRun_voice_length (blockSize sampleRate : Nat) (panFactor : Rat → Rat)
    (procTrack : Channel → Track σ → Bool × Track σ) (relTrack : Track σ → Track σ)
    (chs : List Channel) :
    ∀ v : Voice σ,
      (Voice.processRun blockSize sampleRate panFactor procTrack relTrack chs v).2._voice_length
        = v._voice_length
            + blockSize * (Voice.processRun blockSize sampleRate panFactor procTrack relTrack chs v).1 := by
  induction chs with
  | nil => intro v; simp [Voice.processRun]
  | cons ch rest ih =>
    intro v
    simp only [Voice.processRun]
    rw [ih]
    rw [Voice.process_voice_length blockSize sampleRate panFactor procTrack relTrack ch v]
    by_cases hp : (Voice.process blockSize sampleRate panFactor procTrack relTrack ch v).1
    · simp [hp]
      ring
    · simp [hp]

/-- C5: after `start()`, `voice_length` is 0, and after any sequence of
`process()` calls it equals `blockSize` times the number of calls that
returned `true`; a single call adds exactly `blockSize` when it returns
`true` and leaves `voice_length` unchanged when it returns `false`. -/
theorem C5_voice_length_counts (blockSize sampleRate : Nat) (panFactor : Rat → Rat)
    (procTrack : Channel → Track σ → Bool × Track σ) (relTrack : Track σ → Track σ)
    (startTrack : κ → Track σ → Track σ) (ki : KeyInfo κ) (channel key velocity : Nat)
    (chs : List Channel) (v : Voice σ) (ch0 : Channel) (w : Voice σ) :
    ((Voice.start startTrack ki channel key velocity v)._voice_length = 0) ∧
    ((Voice.processRun blockSize sampleRate panFactor procTrack relTrack chs
        (Voice.start startTrack ki channel key velocity v)).2._voice_length
      = blockSize * (Voice.processRun blockSize sampleRate panFactor procTrack relTrack chs
        (Voice.start startTrack ki channel key velocity v)).1) ∧
    ((Voice.process blockSize sampleRate panFactor procTrack relTrack ch0 w).2._voice_length
      = (if (Voice.process blockSize sampleRate panFactor procTrack relTrack ch0 w).1
          then w._voice_length + blockSize else w._voice_length)) := by
  refine ⟨rfl, ?_, Voice.process_voice_length blockSize sampleRate panFactor procTrack relTrack ch0 w⟩
  rw [Voice.processRun_voice_length]
  show (0 : Nat) + blockSize * _ = blockSize * _
  omega

/-! ## Claim C10: mono pan split skipped when |pan| is at least 50 -/

theorem Voice.releasePhase_mono_right (sampleRate : Nat) (relTrack : Track σ → Track σ)
    (ch : Channel) (v : Voice σ) (hst : v._stereo = false) :
    (Voice.releasePhase sampleRate relTrack ch v)._right = v._right ∧
    (Voice.releasePhase sampleRate relTrack ch v)._stereo = false := by
  unfold Voice.releasePhase
  simp only [hst]
  split_ifs <;> simp_all

theorem Voice.tracksPhase_mono_right (procTrack : Channel → Track σ → Bool × Track σ)
    (ch : Channel) (v : Voice σ) (hst : v._stereo = false) :
    (Voice.tracksPhase procTrack ch v).2._right = v._right ∧
    (Voice.tracksPhase procTrack ch v).2._stereo = false := by
  unfold Voice.tracksPhase
  simp only []
  rw [if_neg (by simp [hst])]
  exact ⟨rfl, hst⟩

theorem Voice.panPhase_skip (panFactor : Rat → Rat) (ch : Channel) (u : Voice σ)
    (hst : u._stereo = false)
    (hpan : ¬ (-50 < ch.pan + u._left.instrument_pan ∧ ch.pan + u._left.instrument_pan < 50)) :
    Voice.panPhase panFactor ch u = u := by
  unfold Voice.panPhase
  rw [if_pos hst]
  simp only []
  rw [if_neg hpan]

theorem Voice.sendsPhase_current_gains (ch : Channel) (u : Voice σ) :
    (Voice.sendsPhase ch u)._left.current_mix_gain = u._left.current_mix_gain ∧
    (Voice.sendsPhase ch u)._right.current_mix_gain = u._right.current_mix_gain := by
  unfold Voice.sendsPhase
  simp only []
  split_ifs <;> exact ⟨rfl, rfl⟩

theorem Voice.firstBlockSnap_current_gains (u : Voice σ) :
    (Voice.firstBlockSnap u)._left.current_mix_gain = u._left.current_mix_gain ∧
    (Voice.firstBlockSnap u)._right.current_mix_gain = u._right.current_mix_gain := by
  unfold Voice.firstBlockSnap
  simp only []
  split_ifs <;> exact ⟨rfl, rfl⟩

/-- C10: in `Voice::process` for a mono voice that passes the audibility
gate and whose track processing succeeds, when the combined pan
`p = channel.pan + instrument_pan` satisfies `p ≤ -50` or `p ≥ 50`, the call
returns `true`, the left current mix gain keeps the unsplit value computed
by the track pipeline, and the right current mix gain is left exactly as it
was before the call. -/
theorem C10_mono_pan_skip (blockSize sampleRate : Nat) (panFactor : Rat → Rat)
    (procTrack : Channel → Track σ → Bool × Track σ) (relTrack : Track σ → Track σ)
    (ch : Channel) (v : Voice σ)
    (hst : v._stereo = false)
    (hgate : ¬ v.inaudible)
    (hsucc : (Voice.tracksPhase procTrack ch
        (Voice.shiftGains (Voice.releasePhase sampleRate relTrack ch v))).1 = true)
    (hpan : ¬ (-50 < ch.pan + (Voice.tracksPhase procTrack ch
          (Voice.shiftGains (Voice.releasePhase sampleRate relTrack ch v))).2._left.instrument_pan
        ∧ ch.pan + (Voice.tracksPhase procTrack ch
          (Voice.shiftGains (Voice.releasePhase sampleRate relTrack ch v))).2._left.instrument_pan < 50)) :
    ((Voice.process blockSize sampleRate panFactor procTrack relTrack ch v).1 = true) ∧
    ((Voice.process blockSize sampleRate panFactor procTrack relTrack ch v).2._left.current_mix_gain
      = (Voice.tracksPhase procTrack ch
          (Voice.shiftGains (Voice.releasePhase sampleRate relTrack ch v))).2._left.current_mix_gain) ∧
    ((Voice.process blockSize sampleRate panFactor procTrack relTrack ch v).2._right.current_mix_gain
      = v._right.current_mix_gain) := by
  have hstW : (Voice.shiftGains (Voice.releasePhase sampleRate relTrack ch v))._stereo = false := by
    rw [Voice.shiftGains]
    exact (Voice.releasePhase_mono_right sampleRate relTrack ch v hst).2
  have hstU : (Voice.tracksPhase procTrack ch
      (Voice.shiftGains (Voice.releasePhase sampleRate relTrack ch v))).2._stereo = false :=
    (Voice.tracksPhase_mono_right procTrack ch _ hstW).2
  have hskip := Voice.panPhase_skip panFactor ch
    (Voice.tracksPhase procTrack ch
      (Voice.shiftGains (Voice.releasePhase sampleRate relTrack ch v))).2 hstU hpan
  unfold Voice.process
  rw [if_neg hgate]
  simp only []
  rw [if_neg (by rw [hsucc]; decide)]
  refine ⟨rfl, ?_, ?_⟩
  · show (Voice.firstBlockSnap (Voice.sendsPhase ch (Voice.panPhase panFactor ch _)))._left.current_mix_gain = _
    rw [hskip]
    rw [(Voice.firstBlockSnap_current_gains _).1, (Voice.sendsPhase_current_gains ch _).1]
  · show (Voice.firstBlockSnap (Voice.sendsPhase ch (Voice.panPhase panFactor ch _)))._right.current_mix_gain = _
    rw [hskip]
    rw [(Voice.firstBlockSnap_current_gains _).2, (Voice.sendsPhase_current_gains ch _).2]
    rw [(Voice.tracksPhase_mono_right procTrack ch _ hstW).1]
    show (Voice.releasePhase sampleRate relTrack ch v)._right.current_mix_gain = _
    rw [(Voice.releasePhase_mono_right sampleRate relTrack ch v hst).1]

/-- C10 witness: a mono voice with audible gain, identity track processing
and a channel panned hard left (`p = -50`). -/
theorem C10_mono_pan_skip_witness :
    ((Voice.process 64 22050 (fun _ => 1) (fun _ t => (true, t)) id chanHardLeft voiceM).1 = true) ∧
    ((Voice.process 64 22050 (fun _ => 1) (fun _ t => (true, t)) id chanHardLeft voiceM).2._left.current_mix_gain
      = (Voice.tracksPhase (fun _ t => (true, t)) chanHardLeft
          (Voice.shiftGains (Voice.releasePhase 22050 id chanHardLeft voiceM))).2._left.current_mix_gain) ∧
    ((Voice.process 64 22050 (fun _ => 1) (fun _ t => (true, t)) id chanHardLeft voiceM).2._right.current_mix_gain
      = voiceM._right.current_mix_gain) :=
  C10_mono_pan_skip 64 22050 (fun _ => 1) (fun _ t => (true, t)) id chanHardLeft voiceM
    rfl
    (by norm_num [Voice.inaudible, voiceM, NON_AUDIBLE])
    (by simp [Voice.tracksPhase, voiceM, Voice.shiftGains, Voice.releasePhase])
    (by
      norm_num [Voice.tracksPhase, voiceM, Voice.shiftGains, Voice.releasePhase,
        chanHardLeft, Channel.pan, Channel.init, Channel.reset,
        show (voice_state_t.VOICE_STATE_PLAYING
            = voice_state_t.VOICE_STATE_RELEASE_REQUESTED) = False from eq_false (by decide)])

/-! ## Claim C1: note-on with an empty bank

`Synthesizer::noteOn` runs the lookup cascade but ignores the result of the
third (default-preset) `getKeyInfo` call; it then requests and starts a
voice unconditionally.  When every lookup fails, `key_info` keeps its
default-constructed contents and the voice is still allocated — the note-on
is NOT dropped. -/

/-- C1 counterexample: with a SoundFont whose bank is empty (every
`getKeyInfo` lookup fails), `noteOn(0, 60, 100)` on a fresh synthesizer
still requests and starts a voice: the active-voice count changes (0 → 1)
instead of staying unchanged as claimed. -/
theorem C1_noteOn_counterexample :
    (Synthesizer.noteOn viewNat id 0 gkiNone ki0U (0, 0) (fun _ _ _ _ v => v)
        0 60 100 synth0).voices._nb_active_voices
      ≠ synth0.voices._nb_active_voices := by
  decide

/-- C1 amended: when the whole lookup cascade finds no preset (the bank is
empty), the note-on is NOT dropped: `noteOn` still requests a voice — the
default-constructed key info carries exclusive class 0, so a free slot is
taken whenever the pool is below capacity, incrementing the active-voice
count — and `start()` is called on that voice with the default-constructed
key info. -/
theorem C1_noteOn_allocates (view : VoiceView V) (endV : V → V) (v0 : V)
    (gki : Nat → Nat → Nat → Nat → Option (KeyInfo κ)) (ki0 : KeyInfo κ)
    (defaultPreset : Nat × Nat) (startV : KeyInfo κ → Nat → Nat → Nat → V → V)
    (channel key velocity : Nat) (st : SynthModel V)
    (hvel : velocity ≠ 0) (hch : channel < st.channels.length)
    (hempty : ∀ b p, gki b p key velocity = none)
    (hki0 : ki0.left_exclusive_class = 0)
    (hroom : st.voices._nb_active_voices < st.voices._voices.length) :
    ((Synthesizer.noteOn view endV v0 gki ki0 defaultPreset startV channel key velocity
        st).voices._nb_active_voices = st.voices._nb_active_voices + 1) ∧
    ((Synthesizer.noteOn view endV v0 gki ki0 defaultPreset startV channel key velocity
        st).voices._voices
      = st.voices._voices.set st.voices._nb_active_voices
          (startV ki0 channel key velocity
            (st.voices._voices.getD st.voices._nb_active_voices v0))) := by
  unfold Synthesizer.noteOn
  rw [if_neg hvel, if_neg (not_le.mpr hch)]
  simp only [hempty, Option.getD_none]
  unfold VoiceCollection.request
  rw [hki0]
  simp only [ne_eq, not_true_eq_false, if_false, Bool.false_eq_true]
  rw [if_pos hroom]
  exact ⟨rfl, rfl⟩

/-- C1 witness for the amended statement: the fresh synthesizer with the
empty-bank SoundFont. -/
theorem C1_noteOn_allocates_witness :
    ((Synthesizer.noteOn viewNat id 0 gkiNone ki0U (0, 0) (fun ki _ _ _ v => v + ki.left_exclusive_class)
        0 60 100 synth0).voices._nb_active_voices = synth0.voices._nb_active_voices + 1) ∧
    ((Synthesizer.noteOn viewNat id 0 gkiNone ki0U (0, 0) (fun ki _ _ _ v => v + ki.left_exclusive_class)
        0 60 100 synth0).voices._voices
      = synth0.voices._voices.set synth0.voices._nb_active_voices
          ((fun (ki : KeyInfo Unit) (_ _ _ : Nat) (v : Nat) => v + ki.left_exclusive_class) ki0U 0 60 100
            (synth0.voices._voices.getD synth0.voices._nb_active_voices 0))) :=
  C1_noteOn_allocates viewNat id 0 gkiNone ki0U (0, 0)
    (fun ki _ _ _ v => v + ki.left_exclusive_class) 0 60 100 synth0
    (by decide) (by decide) (fun _ _ => rfl) rfl (by decide)

end KnmSynth
